import Mathlib

/-!
Verification of the Flight Disruption Engine (`flightsim`).

Shallow embedding of the PL/pgSQL core (`initialize_flight_times`,
`calculate_blast_radius`, `reset_simulation`, `update_flight_statuses`,
`suggest_rebookings`) together with the table schema (`schema.sql`,
`schema_extensions.sql`).  Timestamps are modelled as `Int` minutes;
`EXTRACT(EPOCH FROM (a - b))::INT / 60` on whole-minute timestamps is then
plain subtraction.  SQL `NULL`s are modelled as `Option`; an aborted
transaction (e.g. a foreign-key violation raised inside a function) is
modelled as `Except.error`, the rolled-back state being discarded.
-/

namespace Flightsim

inductive FlightStatus where
  | SCHEDULED | BOARDING | ACTIVE | LANDED | DELAYED | CANCELLED
  deriving DecidableEq, Repr

inductive BookingStatus where
  | CONFIRMED | MISSED_CONNECTION | REBOOKED | CANCELLED
  deriving DecidableEq, Repr

/-- A row of the `flights` table (`schema.sql`). -/
structure Flight where
  id : Nat
  flight_number : String
  aircraft_id : Option Nat
  origin_code : String
  destination_code : String
  scheduled_dep : Int
  scheduled_arr : Int
  actual_dep : Option Int
  actual_arr : Option Int
  delay_minutes : Int
  status : FlightStatus
  deriving DecidableEq, Repr

/-- A row of the `aircraft` table (only the fields the engine reads). -/
structure Aircraft where
  id : Nat
  capacity : Int
  deriving DecidableEq, Repr

/-- A row of the `passengers` table (only the fields the engine reads). -/
structure Passenger where
  id : Nat
  first_name : String
  last_name : String
  deriving DecidableEq, Repr

/-- A row of the `bookings` table. -/
structure Booking where
  id : Nat
  passenger_id : Nat
  flight_id : Nat
  next_booking_id : Option Nat
  status : BookingStatus
  deriving DecidableEq, Repr

/-- A row of the `disruption_log` table. -/
structure LogEntry where
  flight_id : Nat
  delay_minutes : Int
  cause : String
  cascaded_from_flight_id : Option Nat
  passengers_impacted : Nat
  flights_impacted : Nat
  deriving DecidableEq, Repr

/-- A row of the `simulation_snapshots` table (`schema_extensions.sql`);
the engine's reset never touches this table, so only its presence matters. -/
structure Snapshot where
  label : String
  deriving DecidableEq, Repr

/-- The database state the engine mutates. -/
structure DB where
  flights : List Flight
  aircraft : List Aircraft
  passengers : List Passenger
  bookings : List Booking
  disruption_log : List LogEntry
  snapshots : List Snapshot
  deriving DecidableEq, Repr

/-- `COALESCE(actual_dep, scheduled_dep)` — the flight's effective departure. -/
def effDep (f : Flight) : Int := f.actual_dep.getD f.scheduled_dep

/-- `COALESCE(actual_arr, scheduled_arr)` — the flight's effective arrival. -/
def effArr (f : Flight) : Int := f.actual_arr.getD f.scheduled_arr

def lookupFlight (s : DB) (i : Nat) : Option Flight :=
  s.flights.find? (fun f => f.id == i)

def lookupBooking (s : DB) (i : Nat) : Option Booking :=
  s.bookings.find? (fun b => b.id == i)

def lookupAircraft (s : DB) (i : Nat) : Option Aircraft :=
  s.aircraft.find? (fun a => a.id == i)

def lookupPassenger (s : DB) (i : Nat) : Option Passenger :=
  s.passengers.find? (fun p => p.id == i)

/-- Spec §7 error kinds (the ones a mutation can surface). -/
inductive EngineError where
  | NotFound | InvalidScenario | StorageFailure
  deriving DecidableEq, Repr

/-- `initialize_flight_times`: `UPDATE flights SET actual_dep = scheduled_dep,
actual_arr = scheduled_arr WHERE actual_dep IS NULL`. -/
def initialize_flight_times (s : DB) : DB :=
  { s with flights := s.flights.map (fun f =>
      if f.actual_dep.isNone then
        { f with actual_dep := some f.scheduled_dep,
                 actual_arr := some f.scheduled_arr }
      else f) }

/-- The per-row effect of the STEP 1 `UPDATE` of `calculate_blast_radius`:
shift `COALESCE`d actual times by `k` minutes, add `k` to the cumulative
delay, set status `DELAYED`. -/
def delayedBy (f : Flight) (k : Int) : Flight :=
  { f with actual_dep := some (f.actual_dep.getD f.scheduled_dep + k),
           actual_arr := some (f.actual_arr.getD f.scheduled_arr + k),
           delay_minutes := f.delay_minutes + k,
           status := FlightStatus.DELAYED }

/-- STEP 1 of `calculate_blast_radius`: the `UPDATE ... WHERE id = p_flight_id`. -/
def delay_flight (s : DB) (fid : Nat) (k : Int) : DB :=
  { s with flights := s.flights.map (fun f => if f.id == fid then delayedBy f k else f) }

/-- The `WHERE` clause of the STEP 2 `SELECT`: same aircraft, a different
flight, effective departure at/after the updated flight's new departure
(`v_new_dep`!), status not `LANDED`/`CANCELLED`. -/
def nextFlightFilter (s : DB) (selfId : Nat) (ac : Nat) (newDep : Int) : List Flight :=
  s.flights.filter (fun g =>
    g.aircraft_id == some ac && g.id != selfId && decide (newDep ≤ effDep g)
      && g.status != FlightStatus.LANDED && g.status != FlightStatus.CANCELLED)

/-- `ORDER BY COALESCE(actual_dep, scheduled_dep) ASC LIMIT 1`:
an element of minimal effective departure (first such element on ties). -/
def earliestByEffDep : List Flight → Option Flight
  | [] => none
  | f :: fs =>
    match earliestByEffDep fs with
    | none => some f
    | some g => if effDep g < effDep f then some g else some f

/-- STEP 2 candidate selection.  A SQL `NULL` aircraft id or `NULL` comparison
bound selects no row (`NULL = NULL` and `x >= NULL` are not true). -/
def find_next (s : DB) (selfId : Nat) (ac : Option Nat) (newDep : Option Int) :
    Option Flight :=
  match ac, newDep with
  | some a, some nd => earliestByEffDep (nextFlightFilter s selfId a nd)
  | _, _ => none

/-- The inner `SELECT` of STEP 3: the effective departure of the flight of the
linked booking `nbid`, `NULL` when either row is missing. -/
def connectionDep (s : DB) (nbid : Nat) : Option Int :=
  match lookupBooking s nbid with
  | none => none
  | some b2 => (lookupFlight s b2.flight_id).map effDep

/-- The per-row effect of the two STEP 3
`UPDATE bookings SET status = 'MISSED_CONNECTION'` statements: a row whose id
is the current booking's or its linked booking's is marked. -/
def markFn (bid nbid : Nat) (b : Booking) : Booking :=
  if b.id == bid || b.id == nbid then
    { b with status := BookingStatus.MISSED_CONNECTION }
  else b

/-- The two `UPDATE bookings SET status = 'MISSED_CONNECTION'` statements of
STEP 3 (by the current booking's id and by its linked booking's id). -/
def markMissed (s : DB) (bid nbid : Nat) : DB :=
  { s with bookings := s.bookings.map (markFn bid nbid) }

/-- A per-row bookings update that can only preserve a row's identity fields
and at most switch its status to MISSED_CONNECTION — the shape of everything
STEP 3 does to the bookings table. -/
def BookingShape (g : Booking → Booking) : Prop :=
  ∀ x, (g x).id = x.id ∧ (g x).flight_id = x.flight_id ∧
    (g x).next_booking_id = x.next_booking_id ∧
    ((g x).status = x.status ∨ (g x).status = BookingStatus.MISSED_CONNECTION)

/-- Every booking row carrying this id is MISSED_CONNECTION. -/
def MarkedIn (st : DB) (i : Nat) : Prop :=
  ∀ x ∈ st.bookings, x.id = i → x.status = BookingStatus.MISSED_CONNECTION

/-- One iteration of the STEP 3 loop: resolve the linked flight's effective
departure (SQL `NULL` when the linked booking or its flight is missing), break
the connection when the gap to the updated arrival is strictly below
`v_min_connection = 30`, counting one impacted passenger. -/
def connectionStep (newArr : Option Int) (acc : DB × Nat) (b : Booking) : DB × Nat :=
  match b.next_booking_id with
  | none => acc
  | some n =>
    match connectionDep acc.1 n, newArr with
    | some d, some na =>
      if d - na < 30 then (markMissed acc.1 b.id n, acc.2 + 1) else acc
    | _, _ => acc

/-- STEP 3 of `calculate_blast_radius`: loop over the `CONFIRMED` bookings of
the delayed flight that have a forward link (cursor snapshot taken up front),
breaking connections; returns the updated state and `v_pax_impacted`. -/
def check_connections (s : DB) (fid : Nat) (newArr : Option Int) : DB × Nat :=
  let targets := s.bookings.filter (fun b =>
    b.flight_id == fid && b.next_booking_id.isSome
      && b.status == BookingStatus.CONFIRMED)
  targets.foldl (connectionStep newArr) (s, 0)

/-- STEP 4: `INSERT INTO disruption_log ...`.  `disruption_log.flight_id` and
`cascaded_from_flight_id` carry `REFERENCES flights(id)` constraints
(`schema.sql`); a violation raises and aborts the whole transaction, which we
surface as `StorageFailure`. -/
def insert_log (s : DB) (e : LogEntry) : Except EngineError DB :=
  if ((lookupFlight s e.flight_id).isSome
      && (match e.cascaded_from_flight_id with
          | none => true
          | some c => (lookupFlight s c).isSome)) then
    Except.ok { s with disruption_log := s.disruption_log ++ [e] }
  else
    Except.error EngineError.StorageFailure

/-- `v_new_arr`: the updated flight's actual arrival, fetched right after the
STEP 1 update and saved in a variable (so later steps use this value even if
a cascade cycles back onto the flight). -/
def newArrOf (s1 : DB) (fid : Nat) : Option Int :=
  (lookupFlight s1 fid).bind (fun f => f.actual_arr)

/-- `v_new_dep`: the updated flight's actual departure. -/
def newDepOf (s1 : DB) (fid : Nat) : Option Int :=
  (lookupFlight s1 fid).bind (fun f => f.actual_dep)

/-- `v_aircraft_id`: the updated flight's aircraft. -/
def acOf (s1 : DB) (fid : Nat) : Option Nat :=
  (lookupFlight s1 fid).bind (fun f => f.aircraft_id)

/-- STEP 2 of `calculate_blast_radius` on the post-STEP-1 state `s1`:
select the aircraft's next flight, compute
`v_forced_delay = 45 - minutes(v_next_dep - v_new_arr)` and, when it is
positive, recurse (`rec` is the recursive call one depth deeper); returns
the resulting state and `v_flights_impacted`. -/
def step2Of (rec : DB → Nat → Int → String → Option Nat → Except EngineError DB)
    (s1 : DB) (fid : Nat) : Except EngineError (DB × Nat) :=
  match find_next s1 fid (acOf s1 fid) (newDepOf s1 fid), newArrOf s1 fid with
  | some nf, some na =>
    if 0 < 45 - (effDep nf - na) then
      match rec s1 nf.id (45 - (effDep nf - na))
          ("Aircraft turnaround from flight " ++ toString fid) (some fid) with
      | Except.ok s2 => Except.ok (s2, 1)
      | Except.error e => Except.error e
    else Except.ok (s1, 0)
  | _, _ => Except.ok (s1, 0)

/-- The body of `calculate_blast_radius`, structurally recursive on the
remaining recursion budget `21 - depth` (the source guard `IF p_depth > 20
THEN RETURN` makes exactly that quantity the measure; the recursive call uses
`p_depth + 1`). -/
def blast_go : Nat → DB → Nat → Int → String → Option Nat → Except EngineError DB
  | 0, s, _, _, _, _ => Except.ok s
  | Nat.succ d, s, fid, p, cause, cf =>
    -- STEP 1, then STEP 2
    match step2Of (blast_go d) (delay_flight s fid p) fid with
    | Except.error e => Except.error e
    | Except.ok (s2, fi) =>
      -- STEP 3 (with the `v_new_arr` saved before the recursion), then STEP 4
      match check_connections s2 fid (newArrOf (delay_flight s fid p) fid) with
      | (s3, pax) =>
        insert_log s3 { flight_id := fid, delay_minutes := p, cause := cause,
                        cascaded_from_flight_id := cf,
                        passengers_impacted := pax, flights_impacted := fi }

/-- `calculate_blast_radius(p_flight_id, p_delay_minutes, p_cause,
p_cascaded_from, p_depth)`. -/
def calculate_blast_radius (s : DB) (fid : Nat) (p : Int) (cause : String)
    (cf : Option Nat) (depth : Nat) : Except EngineError DB :=
  blast_go (21 - depth) s fid p cause cf

/-- The manual-trigger path of `POST /api/simulate/delay`: a root call with
`p_cascaded_from = NULL`, `p_depth = 0`. -/
def trigger_delay (s : DB) (fid : Nat) (p : Int) (cause : String) :
    Except EngineError DB :=
  calculate_blast_radius s fid p cause none 0

/-- A sequence of manual delay triggers, aborting on the first failure. -/
def run_triggers : DB → List (Nat × Int × String) → Except EngineError DB
  | s, [] => Except.ok s
  | s, t :: rest =>
    match trigger_delay s t.1 t.2.1 t.2.2 with
    | Except.ok s1 => run_triggers s1 rest
    | Except.error e => Except.error e

/-- `reset_simulation`: restore actual times to scheduled, delay to 0, status
to `SCHEDULED`, all bookings to `CONFIRMED`, delete the disruption log.
It does not touch `simulation_snapshots`. -/
def reset_simulation (s : DB) : DB :=
  { s with
    flights := s.flights.map (fun f =>
      { f with actual_dep := some f.scheduled_dep,
               actual_arr := some f.scheduled_arr,
               delay_minutes := 0,
               status := FlightStatus.SCHEDULED }),
    bookings := s.bookings.map (fun b => { b with status := BookingStatus.CONFIRMED }),
    disruption_log := [] }

/-- First `UPDATE` of `update_flight_statuses`: `SCHEDULED` → `BOARDING`
when `effDep ≤ now + 30` and `effDep > now`. -/
def boardStep (now : Int) (f : Flight) : Flight :=
  if f.status == FlightStatus.SCHEDULED && decide (effDep f ≤ now + 30)
      && decide (now < effDep f) then
    { f with status := FlightStatus.BOARDING }
  else f

/-- Second `UPDATE`: `BOARDING`/`DELAYED` → `ACTIVE` when past departure and
before arrival. -/
def activateStep (now : Int) (f : Flight) : Flight :=
  if (f.status == FlightStatus.BOARDING || f.status == FlightStatus.DELAYED)
      && decide (effDep f ≤ now) && decide (now < effArr f) then
    { f with status := FlightStatus.ACTIVE }
  else f

/-- Third `UPDATE`: `ACTIVE` → `LANDED` when past arrival. -/
def landStep (now : Int) (f : Flight) : Flight :=
  if f.status == FlightStatus.ACTIVE && decide (effArr f ≤ now) then
    { f with status := FlightStatus.LANDED }
  else f

/-- `update_flight_statuses`: the three sequential row-wise `UPDATE`s,
evaluated against the wall clock `now`. -/
def update_flight_statuses (s : DB) (now : Int) : DB :=
  let s1 := { s with flights := s.flights.map (boardStep now) }
  let s2 := { s1 with flights := s1.flights.map (activateStep now) }
  { s2 with flights := s2.flights.map (landStep now) }

/-- A row of the table returned by `suggest_rebookings`. -/
structure RebookingSuggestion where
  booking_id : Nat
  passenger_name : String
  passenger_id : Nat
  missed_flight_number : String
  missed_origin : String
  missed_destination : String
  suggested_flight_id : Nat
  suggested_flight_number : String
  suggested_dep : Int
  suggested_arr : Int
  seats_available : Int
  time_saved_minutes : Int
  deriving DecidableEq, Repr

/-- `SELECT COUNT(*) FROM bookings WHERE flight_id = ... AND status IN
('CONFIRMED', 'REBOOKED')`. -/
def bookedSeats (s : DB) (flightId : Nat) : Nat :=
  (s.bookings.filter (fun b =>
    b.flight_id == flightId
      && (b.status == BookingStatus.CONFIRMED
          || b.status == BookingStatus.REBOOKED))).length

/-- The candidate query of `suggest_rebookings`: flights joined with their
aircraft, on the missed flight's exact route, departing after `now`, not
`LANDED`/`CANCELLED`, not the missed flight itself; ordered by effective
departure, first three rows. -/
def rebookCandidates (s : DB) (now : Int) (missed : Flight) :
    List (Flight × Aircraft) :=
  let pool := s.flights.filterMap (fun f =>
    match f.aircraft_id.bind (lookupAircraft s) with
    | none => none
    | some a =>
      if f.origin_code == missed.origin_code
          && f.destination_code == missed.destination_code
          && decide (now < effDep f)
          && f.status != FlightStatus.LANDED
          && f.status != FlightStatus.CANCELLED
          && f.id != missed.id then
        some (f, a)
      else none)
  (pool.insertionSort (fun x y => effDep x.1 ≤ effDep y.1)).take 3

/-- The seats still available on a candidate flight. -/
def availableSeats (s : DB) (c : Flight × Aircraft) : Int :=
  c.2.capacity - (bookedSeats s c.1.id : Int)

/-- The body of the outer loop of `suggest_rebookings` for one booking:
`MISSED_CONNECTION` bookings with a forward link (joined to their passenger),
resolve the linked booking's flight, scan the up-to-3 candidates in order and
emit the first with free seats. -/
def suggest_for_booking (s : DB) (now : Int) (b : Booking) :
    Option RebookingSuggestion :=
  if b.status == BookingStatus.MISSED_CONNECTION then
    match lookupPassenger s b.passenger_id with
    | none => none
    | some pax =>
      match b.next_booking_id with
      | none => none
      | some n =>
        match (lookupBooking s n).bind (fun b2 => lookupFlight s b2.flight_id) with
        | none => none
        | some missed =>
          match (rebookCandidates s now missed).find?
              (fun c => decide (0 < availableSeats s c)) with
          | none => none
          | some c =>
            some { booking_id := b.id,
                   passenger_name := pax.first_name ++ " " ++ pax.last_name,
                   passenger_id := b.passenger_id,
                   missed_flight_number := missed.flight_number,
                   missed_origin := missed.origin_code,
                   missed_destination := missed.destination_code,
                   suggested_flight_id := c.1.id,
                   suggested_flight_number := c.1.flight_number,
                   suggested_dep := effDep c.1,
                   suggested_arr := effArr c.1,
                   seats_available := availableSeats s c,
                   time_saved_minutes := effArr missed - effArr c.1 }
  else none

/-- `suggest_rebookings`, read-only, evaluated at wall clock `now`. -/
def suggest_rebookings (s : DB) (now : Int) : List RebookingSuggestion :=
  s.bookings.filterMap (suggest_for_booking s now)

/-- `metrics.delayed_flights` of `fetchWorldState`. -/
def countDelayedFlights (s : DB) : Nat :=
  (s.flights.filter (fun f => f.status == FlightStatus.DELAYED)).length

/-- `metrics.missed_connections` of `fetchWorldState`. -/
def countMissedConnections (s : DB) : Nat :=
  (s.bookings.filter (fun b => b.status == BookingStatus.MISSED_CONNECTION)).length

/-- A flight whose actual times have been initialized (spec §3). -/
def Initialized (f : Flight) : Prop :=
  f.actual_dep.isSome ∧ f.actual_arr.isSome

/-- The spec §3 flight invariant: once initialized,
`actual_dep = scheduled_dep + cumulative_delay` and the actual duration equals
the scheduled duration. -/
def DelayInvariant (f : Flight) : Prop :=
  ∀ dep arr, f.actual_dep = some dep → f.actual_arr = some arr →
    dep = f.scheduled_dep + f.delay_minutes ∧
    arr - dep = f.scheduled_arr - f.scheduled_dep

/-- Per-flight preservation of the spec §3 invariant. -/
def InvPres (f f' : Flight) : Prop :=
  Initialized f → DelayInvariant f → Initialized f' ∧ DelayInvariant f'

/-- The relation a single `calculate_blast_radius` invocation establishes
between each flight row and its updated image: untouched, or shifted by some
non-negative total delay. -/
def FlightRel (f f' : Flight) : Prop :=
  f' = f ∨ ∃ k, 0 ≤ k ∧ f' = delayedBy f k

/-- The step-2 candidate as claim C1 words it: effective departure at or
after the just-updated flight's new ARRIVAL.  Written from the claim for
comparison with the source's `find_next`, whose `WHERE` clause compares
against `v_new_dep`, the new departure. -/
def claimNextFlightByArrival (s : DB) (selfId : Nat) (ac : Nat) (newArr : Int) :
    Option Flight :=
  earliestByEffDep (s.flights.filter (fun g =>
    g.aircraft_id == some ac && g.id != selfId && decide (newArr ≤ effDep g)
      && g.status != FlightStatus.LANDED && g.status != FlightStatus.CANCELLED))

/-! ### Concrete states used by witnesses and counterexamples -/

def dbEmpty : DB := ⟨[], [], [], [], [], []⟩

def flightOneC1 : Flight :=
  ⟨1, "FL1", some 7, "JFK", "LHR", 0, 100, none, none, 0, FlightStatus.SCHEDULED⟩

def flightTwoC1 : Flight :=
  ⟨2, "FL2", some 7, "JFK", "LHR", 50, 150, none, none, 0, FlightStatus.SCHEDULED⟩

def dbC1 : DB := ⟨[flightOneC1, flightTwoC1], [⟨7, 180⟩], [], [], [], []⟩

/-- A cyclic-looking rotation: two flights sharing one aircraft, each the
other's candidate next flight. -/
def dbC2 : DB :=
  ⟨[⟨1, "FL1", some 7, "JFK", "LHR", 0, 100, none, none, 0, FlightStatus.SCHEDULED⟩,
    ⟨2, "FL2", some 7, "LHR", "JFK", 100, 200, none, none, 0, FlightStatus.SCHEDULED⟩],
   [⟨7, 180⟩], [], [], [], []⟩

def bookingTenC3 : Booking := ⟨10, 5, 1, some 11, BookingStatus.CONFIRMED⟩

def bookingElevenC3 : Booking := ⟨11, 5, 2, none, BookingStatus.CONFIRMED⟩

def linkedFlightC3 (t : Int) : Flight :=
  ⟨2, "FL2", none, "LHR", "CDG", t, t + 100, none, none, 0, FlightStatus.SCHEDULED⟩

/-- One itinerary: booking 10 on flight 1 links to booking 11 on flight 2,
whose (effective) departure is the parameter `t`. -/
def dbC3 (t : Int) : DB :=
  ⟨[⟨1, "FL1", none, "JFK", "LHR", 0, 100, none, none, 0, FlightStatus.SCHEDULED⟩,
    linkedFlightC3 t],
   [], [⟨5, "Ada", "Lovelace"⟩], [bookingTenC3, bookingElevenC3], [], []⟩

def bookingTenX : Booking := ⟨10, 5, 1, some 11, BookingStatus.CONFIRMED⟩

def bookingElevenX : Booking := ⟨11, 5, 1, some 12, BookingStatus.CONFIRMED⟩

def bookingTwelveX : Booking := ⟨12, 5, 2, none, BookingStatus.MISSED_CONNECTION⟩

/-- Two CONFIRMED forward-linked bookings on the delayed flight 1: booking 10
links to booking 11 (itself on flight 1, effective departure 10), booking 11
links to booking 12 on flight 2 (effective departure 200, a 100-minute gap
from the updated arrival 100); booking 12 is already MISSED_CONNECTION. -/
def dbC3x : DB :=
  ⟨[⟨1, "FL1", none, "JFK", "LHR", 0, 100, some 10, some 110, 10, FlightStatus.DELAYED⟩,
    ⟨2, "FL2", none, "LHR", "CDG", 200, 300, none, none, 0, FlightStatus.SCHEDULED⟩],
   [], [⟨5, "Ada", "Lovelace"⟩],
   [bookingTenX, bookingElevenX, bookingTwelveX], [], []⟩

def fOneC4 : Flight :=
  ⟨1, "FL1", some 7, "JFK", "LHR", 0, 100, none, none, 0, FlightStatus.SCHEDULED⟩

def fTwoC4 (t : Int) : Flight :=
  ⟨2, "FL2", some 7, "LHR", "JFK", t, t + 100, none, none, 0, FlightStatus.SCHEDULED⟩

/-- Same aircraft rotation; delaying flight 1 by 10 gives new arrival 110, so
`t = 155` leaves exactly 45 minutes of turnaround and `t = 154` only 44. -/
def dbC4 (t : Int) : DB := ⟨[fOneC4, fTwoC4 t], [⟨7, 180⟩], [], [], [], []⟩

def dbC5 : DB :=
  ⟨[⟨1, "FL1", some 7, "JFK", "LHR", 0, 100, some 0, some 100, 0, FlightStatus.SCHEDULED⟩],
   [⟨7, 180⟩], [], [], [], []⟩

/-- The state `calculate_blast_radius dbC5 1 5 "w"` produces. -/
def resultC5 : DB :=
  ⟨[⟨1, "FL1", some 7, "JFK", "LHR", 0, 100, some 5, some 105, 5, FlightStatus.DELAYED⟩],
   [⟨7, 180⟩], [], [], [⟨1, 5, "w", none, 0, 0⟩], []⟩

/-- The state two successive triggers (5 then 7 minutes) on `dbC5` produce. -/
def resultC6 : DB :=
  ⟨[⟨1, "FL1", some 7, "JFK", "LHR", 0, 100, some 12, some 112, 12, FlightStatus.DELAYED⟩],
   [⟨7, 180⟩], [], [],
   [⟨1, 5, "a", none, 0, 0⟩, ⟨1, 7, "b", none, 0, 0⟩], []⟩

/-- A thoroughly dirty state: a delayed flight, a broken booking, a log entry
and one stored snapshot. -/
def dbC7 : DB :=
  ⟨[⟨1, "FL1", some 7, "JFK", "LHR", 0, 100, some 30, some 130, 30, FlightStatus.DELAYED⟩],
   [⟨7, 180⟩], [⟨5, "Ada", "Lovelace"⟩],
   [⟨10, 5, 1, none, BookingStatus.MISSED_CONNECTION⟩],
   [⟨1, 30, "Weather delay", none, 1, 0⟩], [⟨"snap1"⟩]⟩

def paxFiveC8 : Passenger := ⟨5, "Ada", "Lovelace"⟩

def bookingW : Booking := ⟨10, 5, 1, some 11, BookingStatus.MISSED_CONNECTION⟩

def bookingElevenC8 : Booking := ⟨11, 5, 2, none, BookingStatus.CONFIRMED⟩

/-- The missed connecting flight of the spec's rebooking example. -/
def missedW : Flight :=
  ⟨2, "FL2", some 7, "JFK", "LHR", 500, 900, none, none, 0, FlightStatus.SCHEDULED⟩

/-- The spec §8 rebooking example: a MISSED_CONNECTION booking on route
JFK→LHR, no seats on the first two candidates, one seat on the third. -/
def dbC8 : DB :=
  ⟨[⟨1, "FL1", some 7, "ORD", "JFK", 0, 100, none, none, 0, FlightStatus.SCHEDULED⟩,
    missedW,
    ⟨3, "FL3", some 30, "JFK", "LHR", 600, 950, none, none, 0, FlightStatus.SCHEDULED⟩,
    ⟨4, "FL4", some 31, "JFK", "LHR", 700, 980, none, none, 0, FlightStatus.SCHEDULED⟩,
    ⟨5, "FL5", some 32, "JFK", "LHR", 800, 1000, none, none, 0, FlightStatus.SCHEDULED⟩],
   [⟨7, 180⟩, ⟨30, 1⟩, ⟨31, 1⟩, ⟨32, 1⟩],
   [paxFiveC8, ⟨6, "Alan", "Turing"⟩],
   [bookingW, bookingElevenC8,
    ⟨20, 6, 3, none, BookingStatus.CONFIRMED⟩,
    ⟨21, 6, 4, none, BookingStatus.REBOOKED⟩],
   [], []⟩

/-- The one suggestion the matcher emits on `dbC8`: the third candidate,
one seat, and a negative (slower-alternative) time saving. -/
def sugW : RebookingSuggestion :=
  ⟨10, "Ada Lovelace", 5, "FL2", "JFK", "LHR", 5, "FL5", 800, 1000, 1, -100⟩

def dbC9 : DB :=
  ⟨[⟨1, "FL1", some 7, "JFK", "LHR", 0, 100, none, none, 0, FlightStatus.SCHEDULED⟩],
   [⟨7, 180⟩], [], [], [], []⟩

def dbC10 : DB :=
  ⟨[⟨1, "FL1", some 7, "JFK", "LHR", 0, 100, none, none, 0, FlightStatus.SCHEDULED⟩],
   [⟨7, 180⟩], [], [], [], []⟩

/-! ### Lookup lemmas -/

theorem lookupFlight_id {s : DB} {i : Nat} {f : Flight}
    (h : lookupFlight s i = some f) : f.id = i := by
  have := List.find?_some h
  simpa using this

theorem lookupFlight_mem {s : DB} {i : Nat} {f : Flight}
    (h : lookupFlight s i = some f) : f ∈ s.flights :=
  List.mem_of_find?_eq_some h

theorem lookupBooking_id {s : DB} {i : Nat} {b : Booking}
    (h : lookupBooking s i = some b) : b.id = i := by
  have := List.find?_some h
  simpa using this

theorem lookupFlight_congr {s s' : DB} (h : s'.flights = s.flights) (i : Nat) :
    lookupFlight s' i = lookupFlight s i := by
  unfold lookupFlight
  rw [h]

theorem lookupFlight_isSome_iff {s : DB} {i : Nat} :
    (lookupFlight s i).isSome ↔ ∃ f ∈ s.flights, f.id = i := by
  unfold lookupFlight
  simp [List.find?_isSome]

theorem exists_id_of_map_eq {l l' : List Flight}
    (h : l.map Flight.id = l'.map Flight.id) {i : Nat}
    (hf : ∃ f ∈ l, f.id = i) : ∃ f ∈ l', f.id = i := by
  obtain ⟨f, hmem, hid⟩ := hf
  have : i ∈ l'.map Flight.id := by
    rw [← h]
    exact hid ▸ List.mem_map_of_mem _ hmem
  obtain ⟨g, hg, hgid⟩ := List.mem_map.1 this
  exact ⟨g, hg, hgid⟩

/-! ### The `ORDER BY ... LIMIT 1` selection -/

theorem earliestByEffDep_eq_none : ∀ {l : List Flight},
    earliestByEffDep l = none → l = [] := by
  intro l h
  cases l with
  | nil => rfl
  | cons a t =>
    rw [earliestByEffDep] at h
    split at h
    · cases h
    · split at h <;> cases h

theorem earliestByEffDep_mem : ∀ {l : List Flight} {f : Flight},
    earliestByEffDep l = some f → f ∈ l := by
  intro l
  induction l with
  | nil => intro f h; simp [earliestByEffDep] at h
  | cons a l ih =>
    intro f h
    rw [earliestByEffDep] at h
    split at h
    · cases h
      exact List.mem_cons_self a l
    · rename_i g hE
      split at h
      · cases h
        exact List.mem_cons_of_mem a (ih hE)
      · cases h
        exact List.mem_cons_self a l

theorem earliestByEffDep_min : ∀ {l : List Flight} {f : Flight},
    earliestByEffDep l = some f → ∀ g ∈ l, effDep f ≤ effDep g := by
  intro l
  induction l with
  | nil => intro f h; simp [earliestByEffDep] at h
  | cons a l ih =>
    intro f h g hg
    rw [earliestByEffDep] at h
    split at h
    · rename_i hE
      cases h
      rcases List.mem_cons.1 hg with rfl | hmem
      · exact le_refl _
      · rw [earliestByEffDep_eq_none hE] at hmem
        cases hmem
    · rename_i w hE
      split at h
      · rename_i hlt
        cases h
        rcases List.mem_cons.1 hg with rfl | hmem
        · exact le_of_lt hlt
        · exact ih hE g hmem
      · rename_i hlt
        cases h
        rcases List.mem_cons.1 hg with rfl | hmem
        · exact le_refl _
        · exact le_trans (not_lt.1 hlt) (ih hE g hmem)

/-! ### `delayedBy` and the flight-update relation -/

theorem delayedBy_id (f : Flight) (k : Int) : (delayedBy f k).id = f.id := rfl

theorem delayedBy_delayedBy (f : Flight) (k1 k2 : Int) :
    delayedBy (delayedBy f k1) k2 = delayedBy f (k1 + k2) := by
  simp [delayedBy, add_assoc]

theorem FlightRel.refl (f : Flight) : FlightRel f f := Or.inl rfl

theorem FlightRel.trans {a b c : Flight} (h1 : FlightRel a b) (h2 : FlightRel b c) :
    FlightRel a c := by
  rcases h1 with rfl | ⟨k1, hk1, rfl⟩
  · exact h2
  · rcases h2 with rfl | ⟨k2, hk2, rfl⟩
    · exact Or.inr ⟨k1, hk1, rfl⟩
    · exact Or.inr ⟨k1 + k2, by omega, by rw [delayedBy_delayedBy]⟩

theorem FlightRel.id_eq {f f' : Flight} (h : FlightRel f f') : f'.id = f.id := by
  rcases h with rfl | ⟨k, _, rfl⟩ <;> rfl

theorem FlightRel.delay_le {f f' : Flight} (h : FlightRel f f') :
    f.delay_minutes ≤ f'.delay_minutes := by
  rcases h with rfl | ⟨k, hk, rfl⟩
  · exact le_refl _
  · simp [delayedBy]; omega

theorem FlightRel.invPres {f f' : Flight} (h : FlightRel f f') : InvPres f f' := by
  rcases h with rfl | ⟨k, _, rfl⟩
  · exact fun hI hD => ⟨hI, hD⟩
  · intro hI hD
    obtain ⟨dep0, hdep0⟩ := Option.isSome_iff_exists.1 hI.1
    obtain ⟨arr0, harr0⟩ := Option.isSome_iff_exists.1 hI.2
    obtain ⟨h1, h2⟩ := hD dep0 arr0 hdep0 harr0
    refine ⟨⟨rfl, rfl⟩, ?_⟩
    intro dep arr hdep harr
    simp only [delayedBy, hdep0, harr0, Option.getD_some, Option.some.injEq] at hdep harr
    subst hdep
    subst harr
    constructor
    · simp [delayedBy]; omega
    · simp [delayedBy]; omega

/-! ### `Forall₂` helpers -/

theorem forall₂_flightRel_refl (l : List Flight) : List.Forall₂ FlightRel l l :=
  List.forall₂_same.2 (fun x _ => FlightRel.refl x)

theorem forall₂_flightRel_trans : ∀ {a b c : List Flight},
    List.Forall₂ FlightRel a b → List.Forall₂ FlightRel b c →
    List.Forall₂ FlightRel a c := by
  intro a b c h1
  induction h1 generalizing c with
  | nil => intro h2; cases h2; exact List.Forall₂.nil
  | cons hr _ ih =>
    intro h2
    cases h2 with
    | cons hr2 h2t => exact List.Forall₂.cons (hr.trans hr2) (ih h2t)

theorem forall₂_exists_left {α β : Type} {R : α → β → Prop} :
    ∀ {l : List α} {l' : List β}, List.Forall₂ R l l' →
      ∀ b ∈ l', ∃ a ∈ l, R a b := by
  intro l l' h
  induction h with
  | nil => intro b hb; cases hb
  | cons hr _ ih =>
    intro b hb
    rcases List.mem_cons.1 hb with rfl | hmem
    · exact ⟨_, List.mem_cons_self _ _, hr⟩
    · obtain ⟨a, ha, hab⟩ := ih b hmem
      exact ⟨a, List.mem_cons_of_mem _ ha, hab⟩

theorem forall₂_flightRel_map_id : ∀ {l l' : List Flight},
    List.Forall₂ FlightRel l l' → l'.map Flight.id = l.map Flight.id := by
  intro l l' h
  induction h with
  | nil => rfl
  | cons hr _ ih => simp [ih, hr.id_eq]

/-! ### `delay_flight` lemmas -/

theorem delay_flight_rel {s : DB} {fid : Nat} {k : Int} (hk : 0 ≤ k) :
    List.Forall₂ FlightRel s.flights (delay_flight s fid k).flights := by
  unfold delay_flight
  simp only
  rw [List.forall₂_map_right_iff]
  refine List.forall₂_same.2 (fun f _ => ?_)
  by_cases hf : f.id == fid
  · simp only [hf, if_true]
    exact Or.inr ⟨k, hk, rfl⟩
  · simp only [hf, if_false]
    exact FlightRel.refl f

theorem delay_flight_map_id (s : DB) (fid : Nat) (k : Int) :
    (delay_flight s fid k).flights.map Flight.id = s.flights.map Flight.id := by
  unfold delay_flight
  simp only [List.map_map]
  refine List.map_congr_left (fun f _ => ?_)
  simp only [Function.comp]
  split <;> rfl

theorem lookupFlight_delay_flight (s : DB) (fid : Nat) (k : Int) (i : Nat) :
    lookupFlight (delay_flight s fid k) i =
      (lookupFlight s i).map (fun f => if f.id == fid then delayedBy f k else f) := by
  unfold lookupFlight delay_flight
  simp only
  rw [List.find?_map]
  have hp : ((fun f => f.id == i) ∘ (fun f => if f.id == fid then delayedBy f k else f))
      = (fun f : Flight => f.id == i) := by
    funext f
    simp only [Function.comp]
    split <;> rfl
  rw [hp]

/-! ### `check_connections` lemmas -/

theorem markMissed_nonbookings (s : DB) (x y : Nat) :
    (markMissed s x y).flights = s.flights ∧
    (markMissed s x y).aircraft = s.aircraft ∧
    (markMissed s x y).passengers = s.passengers ∧
    (markMissed s x y).disruption_log = s.disruption_log ∧
    (markMissed s x y).snapshots = s.snapshots :=
  ⟨rfl, rfl, rfl, rfl, rfl⟩

theorem connectionStep_nonbookings (na : Option Int) (acc : DB × Nat) (b : Booking) :
    (connectionStep na acc b).1.flights = acc.1.flights ∧
    (connectionStep na acc b).1.aircraft = acc.1.aircraft ∧
    (connectionStep na acc b).1.passengers = acc.1.passengers ∧
    (connectionStep na acc b).1.disruption_log = acc.1.disruption_log ∧
    (connectionStep na acc b).1.snapshots = acc.1.snapshots := by
  unfold connectionStep
  split
  · exact ⟨rfl, rfl, rfl, rfl, rfl⟩
  · split
    · split
      · exact ⟨rfl, rfl, rfl, rfl, rfl⟩
      · exact ⟨rfl, rfl, rfl, rfl, rfl⟩
    · exact ⟨rfl, rfl, rfl, rfl, rfl⟩

theorem foldl_connectionStep_nonbookings (na : Option Int) :
    ∀ (l : List Booking) (acc : DB × Nat),
      (l.foldl (connectionStep na) acc).1.flights = acc.1.flights ∧
      (l.foldl (connectionStep na) acc).1.aircraft = acc.1.aircraft ∧
      (l.foldl (connectionStep na) acc).1.passengers = acc.1.passengers ∧
      (l.foldl (connectionStep na) acc).1.disruption_log = acc.1.disruption_log ∧
      (l.foldl (connectionStep na) acc).1.snapshots = acc.1.snapshots := by
  intro l
  induction l with
  | nil => intro acc; exact ⟨rfl, rfl, rfl, rfl, rfl⟩
  | cons b t ih =>
    intro acc
    have h1 := connectionStep_nonbookings na acc b
    have h2 := ih (connectionStep na acc b)
    simp only [List.foldl_cons]
    exact ⟨h2.1.trans h1.1, h2.2.1.trans h1.2.1, h2.2.2.1.trans h1.2.2.1,
      h2.2.2.2.1.trans h1.2.2.2.1, h2.2.2.2.2.trans h1.2.2.2.2⟩

theorem check_connections_nonbookings (s : DB) (fid : Nat) (na : Option Int) :
    (check_connections s fid na).1.flights = s.flights ∧
    (check_connections s fid na).1.aircraft = s.aircraft ∧
    (check_connections s fid na).1.passengers = s.passengers ∧
    (check_connections s fid na).1.disruption_log = s.disruption_log ∧
    (check_connections s fid na).1.snapshots = s.snapshots := by
  unfold check_connections
  exact foldl_connectionStep_nonbookings na _ (s, 0)

/-! ### `insert_log` lemmas -/

theorem insert_log_ok {s s' : DB} {e : LogEntry}
    (h : insert_log s e = Except.ok s') :
    s' = { s with disruption_log := s.disruption_log ++ [e] } := by
  unfold insert_log at h
  split at h
  · cases h; rfl
  · cases h

theorem insert_log_ok_of {s : DB} {e : LogEntry}
    (hfid : (lookupFlight s e.flight_id).isSome = true)
    (hcf : ∀ c, e.cascaded_from_flight_id = some c →
      (lookupFlight s c).isSome = true) :
    insert_log s e = Except.ok { s with disruption_log := s.disruption_log ++ [e] } := by
  unfold insert_log
  rw [if_pos]
  rw [Bool.and_eq_true]
  refine ⟨hfid, ?_⟩
  cases hc : e.cascaded_from_flight_id with
  | none => rfl
  | some c => exact hcf c hc

/-! ### Recursion lemmas for `blast_go` -/

/-- A selected next flight is a row of the state it was selected from. -/
theorem find_next_mem {s : DB} {selfId : Nat} {ac : Option Nat}
    {newDep : Option Int} {nf : Flight}
    (h : find_next s selfId ac newDep = some nf) : nf ∈ s.flights := by
  unfold find_next at h
  revert h
  cases ac with
  | none => intro h; cases h
  | some a =>
    cases newDep with
    | none => intro h; cases h
    | some nd =>
      intro h
      exact List.mem_of_mem_filter (earliestByEffDep_mem h)

/-- STEP 2 cannot fail when every recursion it may spawn succeeds. -/
theorem step2Of_total {rec : DB → Nat → Int → String → Option Nat → Except EngineError DB}
    {s1 : DB} {fid : Nat}
    (hrec : ∀ nf na,
      find_next s1 fid (acOf s1 fid) (newDepOf s1 fid) = some nf →
      newArrOf s1 fid = some na → 0 < 45 - (effDep nf - na) →
      ∃ s2, rec s1 nf.id (45 - (effDep nf - na))
        ("Aircraft turnaround from flight " ++ toString fid) (some fid) =
        Except.ok s2) :
    ∃ s2 fi, step2Of rec s1 fid = Except.ok (s2, fi) := by
  unfold step2Of
  split
  · rename_i nf na hnf hna
    split
    · rename_i hpos
      obtain ⟨s2, hs2⟩ := hrec nf na hnf hna hpos
      rw [hs2]
      exact ⟨_, _, rfl⟩
    · exact ⟨_, _, rfl⟩
  · exact ⟨_, _, rfl⟩

/-- Inversion of STEP 2: either no (positive) cascade happened and the state
is untouched, or the recursion was invoked on the selected next flight with
the forced delay. -/
theorem step2Of_ok {rec : DB → Nat → Int → String → Option Nat → Except EngineError DB}
    {s1 : DB} {fid : Nat} {s2 : DB} {fi : Nat}
    (h : step2Of rec s1 fid = Except.ok (s2, fi)) :
    (s2 = s1 ∧ fi = 0) ∨
    ∃ nf na, find_next s1 fid (acOf s1 fid) (newDepOf s1 fid) = some nf ∧
      newArrOf s1 fid = some na ∧ 0 < 45 - (effDep nf - na) ∧
      rec s1 nf.id (45 - (effDep nf - na))
        ("Aircraft turnaround from flight " ++ toString fid) (some fid) =
        Except.ok s2 ∧ fi = 1 := by
  unfold step2Of at h
  split at h
  · rename_i nf na hnf hna
    split at h
    · rename_i hpos
      split at h
      · rename_i s2' hrec
        cases h
        exact Or.inr ⟨nf, na, hnf, hna, hpos, hrec, rfl⟩
      · cases h
    · cases h
      exact Or.inl ⟨rfl, rfl⟩
  · cases h
    exact Or.inl ⟨rfl, rfl⟩

/-- Inversion of one unfolding of `blast_go` at positive budget. -/
theorem blast_go_succ_ok {d : Nat} {s : DB} {fid : Nat} {p : Int} {c : String}
    {cf : Option Nat} {s' : DB}
    (h : blast_go (d + 1) s fid p c cf = Except.ok s') :
    ∃ s2 fi,
      step2Of (blast_go d) (delay_flight s fid p) fid = Except.ok (s2, fi) ∧
      s' = { (check_connections s2 fid (newArrOf (delay_flight s fid p) fid)).1 with
              disruption_log :=
                (check_connections s2 fid (newArrOf (delay_flight s fid p) fid)).1.disruption_log
                ++ [{ flight_id := fid, delay_minutes := p, cause := c,
                      cascaded_from_flight_id := cf,
                      passengers_impacted :=
                        (check_connections s2 fid (newArrOf (delay_flight s fid p) fid)).2,
                      flights_impacted := fi }] } := by
  rw [blast_go] at h
  split at h
  · exact Except.noConfusion h
  · rename_i s2 fi heq
    refine ⟨s2, fi, heq, ?_⟩
    revert h
    cases hcc : check_connections s2 fid (newArrOf (delay_flight s fid p) fid) with
    | mk s3 pax =>
      intro h
      have := insert_log_ok h
      simp [this, hcc]

/-- A successful `blast_go` run relates every flight row to its image by
`FlightRel`, leaves aircraft, passengers and snapshots unchanged, and only
appends to the disruption log. -/
theorem blast_go_ok : ∀ (d : Nat) (s : DB) (fid : Nat) (p : Int) (c : String)
    (cf : Option Nat) (s' : DB), 0 ≤ p →
    blast_go d s fid p c cf = Except.ok s' →
    List.Forall₂ FlightRel s.flights s'.flights ∧
    s'.aircraft = s.aircraft ∧ s'.passengers = s.passengers ∧
    s'.snapshots = s.snapshots ∧
    ∃ t, s'.disruption_log = s.disruption_log ++ t := by
  intro d
  induction d with
  | zero =>
    intro s fid p c cf s' _ h
    cases h
    exact ⟨forall₂_flightRel_refl _, rfl, rfl, rfl, [], by simp⟩
  | succ d ih =>
    intro s fid p c cf s' hp h
    obtain ⟨s2, fi, hstep, hs'⟩ := blast_go_succ_ok h
    have hcc := check_connections_nonbookings s2 fid (newArrOf (delay_flight s fid p) fid)
    have hrel1 : List.Forall₂ FlightRel s.flights (delay_flight s fid p).flights :=
      delay_flight_rel hp
    have hrel2 : List.Forall₂ FlightRel (delay_flight s fid p).flights s2.flights ∧
        s2.aircraft = (delay_flight s fid p).aircraft ∧
        s2.passengers = (delay_flight s fid p).passengers ∧
        s2.snapshots = (delay_flight s fid p).snapshots ∧
        ∃ t, s2.disruption_log = (delay_flight s fid p).disruption_log ++ t := by
      rcases step2Of_ok hstep with ⟨rfl, _⟩ | ⟨nf, na, _, _, hpos, hrec, _⟩
      · exact ⟨forall₂_flightRel_refl _, rfl, rfl, rfl, [], by simp⟩
      · exact ih _ _ _ _ _ _ (by omega) hrec
    subst hs'
    refine ⟨?_, ?_, ?_, ?_, ?_⟩
    · simpa [hcc.1] using forall₂_flightRel_trans hrel1 hrel2.1
    · simpa [hcc.2.1] using hrel2.2.1
    · simpa [hcc.2.2.1] using hrel2.2.2.1
    · simpa [hcc.2.2.2.2] using hrel2.2.2.2.1
    · obtain ⟨t, ht⟩ := hrel2.2.2.2.2
      refine ⟨t ++ [⟨fid, p, c, cf,
        (check_connections s2 fid (newArrOf (delay_flight s fid p) fid)).2, fi⟩], ?_⟩
      rw [hcc.2.2.2.1, ht]
      have hdl : (delay_flight s fid p).disruption_log = s.disruption_log := rfl
      rw [hdl, List.append_assoc]

/-- `blast_go` preserves the list of flight ids (update-only). -/
theorem blast_go_map_id : ∀ (d : Nat) (s : DB) (fid : Nat) (p : Int) (c : String)
    (cf : Option Nat) (s' : DB),
    blast_go d s fid p c cf = Except.ok s' →
    s'.flights.map Flight.id = s.flights.map Flight.id := by
  intro d
  induction d with
  | zero => intro s fid p c cf s' h; cases h; rfl
  | succ d ih =>
    intro s fid p c cf s' h
    obtain ⟨s2, fi, hstep, hs'⟩ := blast_go_succ_ok h
    have hcc := check_connections_nonbookings s2 fid (newArrOf (delay_flight s fid p) fid)
    have h2 : s2.flights.map Flight.id = (delay_flight s fid p).flights.map Flight.id := by
      rcases step2Of_ok hstep with ⟨rfl, _⟩ | ⟨nf, na, _, _, _, hrec, _⟩
      · rfl
      · exact ih _ _ _ _ _ _ hrec
    subst hs'
    simp only [hcc.1]
    rw [h2, delay_flight_map_id]

/-- When the target flight exists (and the cascaded-from reference, if any),
`blast_go` cannot fail: every id reaching the log insert is a live flight. -/
theorem blast_go_total : ∀ (d : Nat) (s : DB) (fid : Nat) (p : Int) (c : String)
    (cf : Option Nat),
    (∃ f ∈ s.flights, f.id = fid) →
    (∀ cfid, cf = some cfid → ∃ f ∈ s.flights, f.id = cfid) →
    ∃ s', blast_go d s fid p c cf = Except.ok s' := by
  intro d
  induction d with
  | zero => intro s fid p c cf _ _; exact ⟨s, rfl⟩
  | succ d ih =>
    intro s fid p c cf hfid hcf
    have hids1 := delay_flight_map_id s fid p
    have hfid1 : ∃ f ∈ (delay_flight s fid p).flights, f.id = fid :=
      exists_id_of_map_eq hids1.symm hfid
    obtain ⟨s2, fi, hstep⟩ :
        ∃ s2 fi, step2Of (blast_go d) (delay_flight s fid p) fid =
          Except.ok (s2, fi) := by
      refine step2Of_total (fun nf na hnf hna hpos => ?_)
      have hnfmem : nf ∈ (delay_flight s fid p).flights := find_next_mem hnf
      exact ih (delay_flight s fid p) nf.id (45 - (effDep nf - na))
        ("Aircraft turnaround from flight " ++ toString fid) (some fid)
        ⟨nf, hnfmem, rfl⟩
        (by intro cfid hc; cases hc; exact hfid1)
    have hids2 : s2.flights.map Flight.id = s.flights.map Flight.id := by
      rcases step2Of_ok hstep with ⟨rfl, _⟩ | ⟨nf, na, _, _, _, hrec, _⟩
      · exact hids1
      · exact (blast_go_map_id _ _ _ _ _ _ _ hrec).trans hids1
    have hcc := check_connections_nonbookings s2 fid (newArrOf (delay_flight s fid p) fid)
    have hfid3 : (lookupFlight (check_connections s2 fid
        (newArrOf (delay_flight s fid p) fid)).1 fid).isSome = true := by
      rw [lookupFlight_isSome_iff]
      refine exists_id_of_map_eq ?_ hfid
      rw [hcc.1, hids2]
    have hcf3 : ∀ cfid, cf = some cfid →
        (lookupFlight (check_connections s2 fid
          (newArrOf (delay_flight s fid p) fid)).1 cfid).isSome = true := by
      intro cfid hc
      rw [lookupFlight_isSome_iff]
      refine exists_id_of_map_eq ?_ (hcf cfid hc)
      rw [hcc.1, hids2]
    apply Exists.intro
    rw [blast_go]
    rw [hstep]
    exact insert_log_ok_of hfid3 hcf3

/-- A successful positive-budget run appends its own log entry (fields
`p_flight_id`, `p_delay_minutes`, `p_cause`, `p_cascaded_from`). -/
theorem blast_go_entry {d : Nat} {s : DB} {fid : Nat} {p : Int} {c : String}
    {cf : Option Nat} {s' : DB}
    (h : blast_go (d + 1) s fid p c cf = Except.ok s') :
    ∃ e ∈ s'.disruption_log, e.flight_id = fid ∧ e.delay_minutes = p ∧
      e.cause = c ∧ e.cascaded_from_flight_id = cf := by
  obtain ⟨s2, fi, _, hs'⟩ := blast_go_succ_ok h
  subst hs'
  refine ⟨⟨fid, p, c, cf,
    (check_connections s2 fid (newArrOf (delay_flight s fid p) fid)).2, fi⟩,
    ?_, rfl, rfl, rfl, rfl⟩
  simp

/-- One unfolding of `blast_go` at positive budget, as an equation. -/
theorem blast_go_succ_eq {d : Nat} {s : DB} {fid : Nat} {p : Int} {c : String}
    {cf : Option Nat} {s2 : DB} {fi : Nat}
    (hstep : step2Of (blast_go d) (delay_flight s fid p) fid = Except.ok (s2, fi)) :
    blast_go (d + 1) s fid p c cf =
      insert_log (check_connections s2 fid (newArrOf (delay_flight s fid p) fid)).1
        ⟨fid, p, c, cf,
         (check_connections s2 fid (newArrOf (delay_flight s fid p) fid)).2, fi⟩ := by
  rw [blast_go, hstep]

/-- STEP 2 as an equation when a candidate and an arrival exist. -/
theorem step2Of_eq_of_next
    {rec : DB → Nat → Int → String → Option Nat → Except EngineError DB}
    {s1 : DB} {fid : Nat} {nf : Flight} {na : Int}
    (hnf : find_next s1 fid (acOf s1 fid) (newDepOf s1 fid) = some nf)
    (hna : newArrOf s1 fid = some na) :
    step2Of rec s1 fid =
      if 0 < 45 - (effDep nf - na) then
        match rec s1 nf.id (45 - (effDep nf - na))
            ("Aircraft turnaround from flight " ++ toString fid) (some fid) with
        | Except.ok s2 => Except.ok (s2, 1)
        | Except.error e => Except.error e
      else Except.ok (s1, 0) := by
  unfold step2Of
  rw [hnf, hna]

/-- `insert_log` fails (aborting the transaction) when the flight id the
entry references does not exist. -/
theorem insert_log_error_of {s : DB} {e : LogEntry}
    (h : lookupFlight s e.flight_id = none) :
    insert_log s e = Except.error EngineError.StorageFailure := by
  unfold insert_log
  rw [h]
  simp

/-! ## Claim theorems -/

/-- C2: every call of `calculate_blast_radius` with `depth > 20` returns
immediately with the state unchanged — the recursion budget `21 - depth` is
zero, so a cascade (even one bouncing between two flights of a cyclic
aircraft rotation) stops after at most 20 hops and never diverges. -/
theorem depth_guard_no_mutation (s : DB) (fid : Nat) (p : Int) (cause : String)
    (cf : Option Nat) (depth : Nat) (h : 20 < depth) :
    calculate_blast_radius s fid p cause cf depth = Except.ok s := by
  unfold calculate_blast_radius
  have h0 : 21 - depth = 0 := by omega
  rw [h0]
  rfl

theorem depth_guard_no_mutation_witness :
    20 < 21 ∧ calculate_blast_radius dbC2 1 30 "w" (some 2) 21 = Except.ok dbC2 :=
  ⟨by decide, depth_guard_no_mutation dbC2 1 30 "w" (some 2) 21 (by decide)⟩

/-- C9 counterexample: triggering a delay for a flight id that is not in the
network is NOT reported as `NotFound` before work begins — the code runs all
four steps (steps 1–3 match nothing) and fails at the STEP 4 log insert with
a storage (foreign-key) failure. -/
theorem unknown_flight_cex :
    calculate_blast_radius dbC9 99 10 "cause" none 0 ≠
        Except.error EngineError.NotFound ∧
    calculate_blast_radius dbC9 99 10 "cause" none 0 =
        Except.error EngineError.StorageFailure := by
  have heval : calculate_blast_radius dbC9 99 10 "cause" none 0 =
      Except.error EngineError.StorageFailure := rfl
  refine ⟨?_, heval⟩
  rw [heval]
  intro hco
  exact EngineError.noConfusion (Except.error.inj hco)

/-- C9 (amended): with an unknown flight id the delay trigger updates no
flight row (the STEP 1 `UPDATE` matches nothing), fetches `NULL`s so neither
a cascade candidate nor a connection can qualify, and aborts only at the
STEP 4 disruption-log insert with a storage (foreign-key) failure — the
transaction rolls back, so nothing is written, but no `NotFound` error is
raised before the mutation steps run. -/
theorem unknown_flight_storage_failure (s : DB) (fid : Nat) (p : Int)
    (c : String) (h : lookupFlight s fid = none) :
    calculate_blast_radius s fid p c none 0 =
      Except.error EngineError.StorageFailure := by
  unfold calculate_blast_radius
  have h1 : lookupFlight (delay_flight s fid p) fid = none := by
    rw [lookupFlight_delay_flight, h]
    rfl
  have hstep : step2Of (blast_go 20) (delay_flight s fid p) fid =
      Except.ok (delay_flight s fid p, 0) := by
    unfold step2Of
    have hac : acOf (delay_flight s fid p) fid = none := by
      unfold acOf; rw [h1]; rfl
    have hfn : find_next (delay_flight s fid p) fid
        (acOf (delay_flight s fid p) fid)
        (newDepOf (delay_flight s fid p) fid) = none := by
      rw [hac]; rfl
    rw [hfn]
  have h21 : 21 - 0 = 20 + 1 := rfl
  rw [h21, blast_go_succ_eq hstep]
  apply insert_log_error_of
  have hflights := (check_connections_nonbookings (delay_flight s fid p) fid
    (newArrOf (delay_flight s fid p) fid)).1
  rw [lookupFlight_congr hflights]
  exact h1

theorem unknown_flight_storage_failure_witness :
    lookupFlight dbC9 99 = none ∧
    calculate_blast_radius dbC9 99 10 "cause" none 0 =
      Except.error EngineError.StorageFailure :=
  ⟨rfl, unknown_flight_storage_failure dbC9 99 10 "cause" rfl⟩

/-- C7: after `reset_simulation`, every flight is back on its scheduled
times with zero delay and status SCHEDULED, every booking is CONFIRMED,
the disruption log is empty and stored snapshots are untouched; hence the
world-state metrics report zero DELAYED flights and zero MISSED_CONNECTION
bookings. -/
theorem reset_restores_baseline (s : DB) :
    (∀ f ∈ (reset_simulation s).flights,
        f.actual_dep = some f.scheduled_dep ∧ f.actual_arr = some f.scheduled_arr ∧
        f.delay_minutes = 0 ∧ f.status = FlightStatus.SCHEDULED) ∧
    (∀ b ∈ (reset_simulation s).bookings, b.status = BookingStatus.CONFIRMED) ∧
    (reset_simulation s).disruption_log = [] ∧
    (reset_simulation s).snapshots = s.snapshots ∧
    countDelayedFlights (reset_simulation s) = 0 ∧
    countMissedConnections (reset_simulation s) = 0 := by
  refine ⟨?_, ?_, rfl, rfl, ?_, ?_⟩
  · intro f hf
    obtain ⟨g, _, rfl⟩ := List.mem_map.1 hf
    exact ⟨rfl, rfl, rfl, rfl⟩
  · intro b hb
    obtain ⟨g, _, rfl⟩ := List.mem_map.1 hb
    rfl
  · rw [countDelayedFlights, List.length_eq_zero, List.filter_eq_nil_iff]
    intro f hf
    obtain ⟨g, _, rfl⟩ := List.mem_map.1 hf
    simp
  · rw [countMissedConnections, List.length_eq_zero, List.filter_eq_nil_iff]
    intro b hb
    obtain ⟨g, _, rfl⟩ := List.mem_map.1 hb
    simp

/-- The STEP 2 `WHERE` clause, read propositionally. -/
theorem nextFlightFilter_pred {selfId a : Nat} {nd : Int} {g : Flight} :
    (g.aircraft_id == some a && g.id != selfId && decide (nd ≤ effDep g)
      && g.status != FlightStatus.LANDED
      && g.status != FlightStatus.CANCELLED) = true ↔
    (g.aircraft_id = some a ∧ g.id ≠ selfId ∧ nd ≤ effDep g ∧
     g.status ≠ FlightStatus.LANDED ∧ g.status ≠ FlightStatus.CANCELLED) := by
  simp [and_assoc]

/-- C1 counterexample: delay flight 1 of `dbC1` by 10 minutes — its new
departure is 10 and its new arrival is 110.  The source's candidate query
(`COALESCE(actual_dep, scheduled_dep) >= v_new_dep`) selects flight 2, whose
effective departure 50 is BEFORE the new arrival 110, and the engine
cascades 105 minutes onto it; under the claim's rule (effective departure at
or after the new ARRIVAL) there is no candidate at all.  The claim's
description of the candidate is therefore false on this state. -/
theorem next_flight_candidate_cex :
    newArrOf (delay_flight dbC1 1 10) 1 = some 110 ∧
    find_next (delay_flight dbC1 1 10) 1 (acOf (delay_flight dbC1 1 10) 1)
        (newDepOf (delay_flight dbC1 1 10) 1) = some flightTwoC1 ∧
    effDep flightTwoC1 < 110 ∧
    claimNextFlightByArrival (delay_flight dbC1 1 10) 1 7 110 = none ∧
    ((calculate_blast_radius dbC1 1 10 "c" none 0).toOption.bind
        (fun s' => (lookupFlight s' 2).map Flight.delay_minutes)) = some 105 :=
  ⟨rfl, rfl, by decide, rfl, rfl⟩

/-- C1 (amended): the step-2 cascade candidate is the earliest other flight
on the same aircraft, excluding LANDED and CANCELLED flights, whose effective
departure is at or after the just-updated flight's new DEPARTURE (the source
compares against `v_new_dep`, not the new arrival): a returned candidate
satisfies all conditions and is earliest among the qualifying flights, and
`none` is returned exactly when no flight qualifies. -/
theorem next_flight_selection_spec (s : DB) (selfId a : Nat) (nd : Int) :
    (∀ f, find_next s selfId (some a) (some nd) = some f →
      f ∈ s.flights ∧ f.aircraft_id = some a ∧ f.id ≠ selfId ∧ nd ≤ effDep f ∧
      f.status ≠ FlightStatus.LANDED ∧ f.status ≠ FlightStatus.CANCELLED ∧
      ∀ g ∈ s.flights, g.aircraft_id = some a → g.id ≠ selfId → nd ≤ effDep g →
        g.status ≠ FlightStatus.LANDED → g.status ≠ FlightStatus.CANCELLED →
        effDep f ≤ effDep g) ∧
    (find_next s selfId (some a) (some nd) = none →
      ∀ g ∈ s.flights, g.aircraft_id = some a → g.id ≠ selfId → nd ≤ effDep g →
        g.status ≠ FlightStatus.LANDED → g.status ≠ FlightStatus.CANCELLED →
        False) := by
  have hunfold : find_next s selfId (some a) (some nd) =
      earliestByEffDep (nextFlightFilter s selfId a nd) := rfl
  constructor
  · intro f hf
    rw [hunfold] at hf
    have hmem := earliestByEffDep_mem hf
    rw [nextFlightFilter, List.mem_filter] at hmem
    obtain ⟨hmem, hpred⟩ := hmem
    obtain ⟨h1, h2, h3, h4, h5⟩ := nextFlightFilter_pred.1 hpred
    refine ⟨hmem, h1, h2, h3, h4, h5, ?_⟩
    intro g hg hg1 hg2 hg3 hg4 hg5
    refine earliestByEffDep_min hf g ?_
    rw [nextFlightFilter, List.mem_filter]
    exact ⟨hg, nextFlightFilter_pred.2 ⟨hg1, hg2, hg3, hg4, hg5⟩⟩
  · intro hf g hg hg1 hg2 hg3 hg4 hg5
    rw [hunfold] at hf
    have hempty := earliestByEffDep_eq_none hf
    have : g ∈ nextFlightFilter s selfId a nd := by
      rw [nextFlightFilter, List.mem_filter]
      exact ⟨hg, nextFlightFilter_pred.2 ⟨hg1, hg2, hg3, hg4, hg5⟩⟩
    rw [hempty] at this
    cases this

theorem next_flight_selection_spec_witness :
    find_next (delay_flight dbC1 1 10) 1 (some 7) (some 10) = some flightTwoC1 ∧
    (flightTwoC1 ∈ (delay_flight dbC1 1 10).flights ∧
     flightTwoC1.aircraft_id = some 7 ∧ flightTwoC1.id ≠ 1 ∧
     (10:Int) ≤ effDep flightTwoC1 ∧
     flightTwoC1.status ≠ FlightStatus.LANDED ∧
     flightTwoC1.status ≠ FlightStatus.CANCELLED ∧
     ∀ g ∈ (delay_flight dbC1 1 10).flights, g.aircraft_id = some 7 →
       g.id ≠ 1 → (10:Int) ≤ effDep g → g.status ≠ FlightStatus.LANDED →
       g.status ≠ FlightStatus.CANCELLED → effDep flightTwoC1 ≤ effDep g) :=
  ⟨rfl, (next_flight_selection_spec (delay_flight dbC1 1 10) 1 7 10).1
    flightTwoC1 rfl⟩

theorem reset_restores_baseline_witness :
    (∀ f ∈ (reset_simulation dbC7).flights,
        f.actual_dep = some f.scheduled_dep ∧ f.actual_arr = some f.scheduled_arr ∧
        f.delay_minutes = 0 ∧ f.status = FlightStatus.SCHEDULED) ∧
    (∀ b ∈ (reset_simulation dbC7).bookings, b.status = BookingStatus.CONFIRMED) ∧
    (reset_simulation dbC7).disruption_log = [] ∧
    (reset_simulation dbC7).snapshots = dbC7.snapshots ∧
    countDelayedFlights (reset_simulation dbC7) = 0 ∧
    countMissedConnections (reset_simulation dbC7) = 0 :=
  reset_restores_baseline dbC7

/-- C4: in the turnaround cascade the forced delay is
`45 - minutes(next effective departure - updated arrival)` and the recursion
fires only when it is strictly positive: with a candidate departing at least
45 minutes after the new arrival no other flight is touched at all, while a
smaller gap makes the engine recursively delay the candidate by exactly the
forced amount (visible as its own disruption-log entry cascaded from this
flight). -/
theorem turnaround_forced_delay_boundary
    (s : DB) (fid : Nat) (p : Int) (cause : String) (depth : Nat) (f nf : Flight)
    (hdepth : depth ≤ 20)
    (hf : lookupFlight s fid = some f)
    (hnext : find_next (delay_flight s fid p) fid f.aircraft_id
        (some (effDep f + p)) = some nf) :
    (45 ≤ effDep nf - (effArr f + p) →
      ∃ s', calculate_blast_radius s fid p cause none depth = Except.ok s' ∧
        s'.flights = (delay_flight s fid p).flights) ∧
    (effDep nf - (effArr f + p) < 45 → depth < 20 →
      ∃ s', calculate_blast_radius s fid p cause none depth = Except.ok s' ∧
        ∃ e ∈ s'.disruption_log, e.flight_id = nf.id ∧
          e.delay_minutes = 45 - (effDep nf - (effArr f + p)) ∧
          e.cascaded_from_flight_id = some fid) := by
  have hid : f.id = fid := lookupFlight_id hf
  have hf1 : lookupFlight (delay_flight s fid p) fid = some (delayedBy f p) := by
    rw [lookupFlight_delay_flight, hf]
    simp [hid]
  have hna : newArrOf (delay_flight s fid p) fid = some (effArr f + p) := by
    unfold newArrOf
    rw [hf1]
    rfl
  have hnd : newDepOf (delay_flight s fid p) fid = some (effDep f + p) := by
    unfold newDepOf
    rw [hf1]
    rfl
  have hac : acOf (delay_flight s fid p) fid = f.aircraft_id := by
    unfold acOf
    rw [hf1]
    rfl
  have hnext' : find_next (delay_flight s fid p) fid
      (acOf (delay_flight s fid p) fid)
      (newDepOf (delay_flight s fid p) fid) = some nf := by
    rw [hac, hnd]
    exact hnext
  have hd21 : 21 - depth = (20 - depth) + 1 := by omega
  constructor
  · intro hgap
    have hstep : step2Of (blast_go (20 - depth)) (delay_flight s fid p) fid =
        Except.ok (delay_flight s fid p, 0) := by
      rw [step2Of_eq_of_next hnext' hna, if_neg (by omega)]
    have hflights := (check_connections_nonbookings (delay_flight s fid p) fid
      (newArrOf (delay_flight s fid p) fid)).1
    have hfidok : (lookupFlight (check_connections (delay_flight s fid p) fid
        (newArrOf (delay_flight s fid p) fid)).1 fid).isSome = true := by
      rw [lookupFlight_congr hflights, hf1]
      rfl
    apply Exists.intro
    refine ⟨?_, ?_⟩
    · unfold calculate_blast_radius
      rw [hd21, blast_go_succ_eq hstep]
      exact insert_log_ok_of hfidok (fun c hc => by cases hc)
    · exact hflights
  · intro hgap hdlt
    have hnfmem : nf ∈ (delay_flight s fid p).flights := find_next_mem hnext'
    have hfid1 : ∃ g ∈ (delay_flight s fid p).flights, g.id = fid :=
      ⟨delayedBy f p, lookupFlight_mem hf1, hid⟩
    obtain ⟨s2, hs2⟩ := blast_go_total (20 - depth) (delay_flight s fid p) nf.id
      (45 - (effDep nf - (effArr f + p)))
      ("Aircraft turnaround from flight " ++ toString fid) (some fid)
      ⟨nf, hnfmem, rfl⟩ (fun cfid hc => by cases hc; exact hfid1)
    have hstep : step2Of (blast_go (20 - depth)) (delay_flight s fid p) fid =
        Except.ok (s2, 1) := by
      rw [step2Of_eq_of_next hnext' hna, if_pos (by omega), hs2]
    have h20 : 20 - depth = (19 - depth) + 1 := by omega
    have hs2' := hs2
    rw [h20] at hs2'
    obtain ⟨e, hemem, he1, he2, _, he4⟩ := blast_go_entry hs2'
    have hids2 : s2.flights.map Flight.id =
        (delay_flight s fid p).flights.map Flight.id :=
      blast_go_map_id _ _ _ _ _ _ _ hs2
    have hcc := check_connections_nonbookings s2 fid
      (newArrOf (delay_flight s fid p) fid)
    have hmapeq : (delay_flight s fid p).flights.map Flight.id =
        (check_connections s2 fid
          (newArrOf (delay_flight s fid p) fid)).1.flights.map Flight.id := by
      rw [hcc.1, hids2]
    have hfidok : (lookupFlight (check_connections s2 fid
        (newArrOf (delay_flight s fid p) fid)).1 fid).isSome = true := by
      rw [lookupFlight_isSome_iff]
      exact exists_id_of_map_eq hmapeq hfid1
    apply Exists.intro
    refine ⟨?_, ?_⟩
    · unfold calculate_blast_radius
      rw [hd21, blast_go_succ_eq hstep]
      exact insert_log_ok_of hfidok (fun c hc => by cases hc)
    · refine ⟨e, ?_, he1, he2, he4⟩
      show e ∈ (check_connections s2 fid
        (newArrOf (delay_flight s fid p) fid)).1.disruption_log ++ [_]
      refine List.mem_append_left _ ?_
      rw [hcc.2.2.2.1]
      exact hemem

theorem turnaround_forced_delay_boundary_witness :
    (∃ s', calculate_blast_radius (dbC4 155) 1 10 "w" none 0 = Except.ok s' ∧
       s'.flights = (delay_flight (dbC4 155) 1 10).flights) ∧
    (∃ s', calculate_blast_radius (dbC4 154) 1 10 "w" none 0 = Except.ok s' ∧
       ∃ e ∈ s'.disruption_log, e.flight_id = (fTwoC4 154).id ∧
         e.delay_minutes = 45 - (effDep (fTwoC4 154) - (effArr fOneC4 + 10)) ∧
         e.cascaded_from_flight_id = some 1) :=
  ⟨(turnaround_forced_delay_boundary (dbC4 155) 1 10 "w" 0 fOneC4 (fTwoC4 155)
      (by decide) rfl rfl).1 (by decide),
   (turnaround_forced_delay_boundary (dbC4 154) 1 10 "w" 0 fOneC4 (fTwoC4 154)
      (by decide) rfl rfl).2 (by decide) (by decide)⟩

/-! ### Connection-break lemmas -/

theorem lookupBooking_markMissed (s : DB) (x y : Nat) (i : Nat) :
    lookupBooking (markMissed s x y) i =
      (lookupBooking s i).map (markFn x y) := by
  unfold lookupBooking markMissed
  simp only
  rw [List.find?_map]
  have hp : ((fun b => b.id == i) ∘ markFn x y) = (fun b : Booking => b.id == i) := by
    funext b
    simp only [Function.comp, markFn]
    split <;> rfl
  rw [hp]

/-- C3: in STEP 3, for a CONFIRMED booking on the delayed flight with a
forward link (here: the unique such booking, so no other iteration
interferes), both it and its linked booking end up MISSED_CONNECTION exactly
when the minutes between the updated arrival and the linked flight's
effective departure are strictly less than 30 — a 30-minute gap survives, a
29-minute gap is broken. -/
theorem connection_break_boundary (s : DB) (fid n : Nat) (na : Int)
    (b b2 : Booking) (f2 : Flight)
    (hone : s.bookings.filter (fun x => x.flight_id == fid
        && x.next_booking_id.isSome
        && x.status == BookingStatus.CONFIRMED) = [b])
    (hlink : b.next_booking_id = some n)
    (hb : lookupBooking s b.id = some b)
    (hns : lookupBooking s n = some b2)
    (hf2 : lookupFlight s b2.flight_id = some f2) :
    (((lookupBooking (check_connections s fid (some na)).1 b.id).map Booking.status
        = some BookingStatus.MISSED_CONNECTION) ∧
     ((lookupBooking (check_connections s fid (some na)).1 n).map Booking.status
        = some BookingStatus.MISSED_CONNECTION))
    ↔ effDep f2 - na < 30 := by
  have hbstat : b.status = BookingStatus.CONFIRMED := by
    have hbmem : b ∈ s.bookings.filter (fun x => x.flight_id == fid
        && x.next_booking_id.isSome
        && x.status == BookingStatus.CONFIRMED) := by
      rw [hone]; exact List.mem_cons_self b []
    rw [List.mem_filter] at hbmem
    have := hbmem.2
    simp only [Bool.and_eq_true, beq_iff_eq] at this
    exact this.2
  have hdep : connectionDep s n = some (effDep f2) := by
    unfold connectionDep
    rw [hns]
    show Option.map effDep (lookupFlight s b2.flight_id) = some (effDep f2)
    rw [hf2]
    rfl
  have hcc : check_connections s fid (some na) =
      if effDep f2 - na < 30 then (markMissed s b.id n, 1) else (s, 0) := by
    unfold check_connections
    rw [hone]
    simp only [List.foldl_cons, List.foldl_nil, connectionStep, hlink, hdep]
  have hid2 : b2.id = n := lookupBooking_id hns
  by_cases hgap : effDep f2 - na < 30
  · rw [hcc, if_pos hgap]
    constructor
    · intro _
      exact hgap
    · intro _
      constructor
      · show (lookupBooking (markMissed s b.id n) b.id).map Booking.status
          = some BookingStatus.MISSED_CONNECTION
        rw [lookupBooking_markMissed, hb]
        simp [markFn]
      · show (lookupBooking (markMissed s b.id n) n).map Booking.status
          = some BookingStatus.MISSED_CONNECTION
        rw [lookupBooking_markMissed, hns]
        simp [markFn, hid2]
  · rw [hcc, if_neg hgap]
    constructor
    · rintro ⟨h1, -⟩
      rw [show ((s, 0) : DB × Nat).1 = s from rfl, hb] at h1
      simp [hbstat] at h1
    · intro h1
      exact absurd h1 hgap

theorem markFn_fields (a c : Nat) (x : Booking) :
    (markFn a c x).id = x.id ∧ (markFn a c x).flight_id = x.flight_id ∧
    (markFn a c x).next_booking_id = x.next_booking_id ∧
    ((markFn a c x).status = x.status ∨
      (markFn a c x).status = BookingStatus.MISSED_CONNECTION) := by
  unfold markFn
  split
  · exact ⟨rfl, rfl, rfl, Or.inr rfl⟩
  · exact ⟨rfl, rfl, rfl, Or.inl rfl⟩

theorem bookingShape_id : BookingShape id :=
  fun _ => ⟨rfl, rfl, rfl, Or.inl rfl⟩

theorem bookingShape_markFn (a c : Nat) : BookingShape (markFn a c) :=
  fun x => markFn_fields a c x

theorem bookingShape_comp {g1 g2 : Booking → Booking}
    (h1 : BookingShape g1) (h2 : BookingShape g2) : BookingShape (g2 ∘ g1) := by
  intro x
  obtain ⟨a1, b1, c1, d1⟩ := h1 x
  obtain ⟨a2, b2, c2, d2⟩ := h2 (g1 x)
  refine ⟨a2.trans a1, b2.trans b1, c2.trans c1, ?_⟩
  rcases d2 with h | h
  · rcases d1 with h' | h'
    · exact Or.inl (h.trans h')
    · exact Or.inr (h.trans h')
  · exact Or.inr h

theorem connectionStep_bookings_map (na : Option Int) (acc : DB × Nat)
    (b : Booking) :
    ∃ g, BookingShape g ∧
      (connectionStep na acc b).1.bookings = acc.1.bookings.map g := by
  unfold connectionStep
  split
  · exact ⟨id, bookingShape_id, by simp⟩
  · rename_i n hn
    split
    · rename_i d na' hd hna
      split
      · exact ⟨markFn b.id n, bookingShape_markFn b.id n, rfl⟩
      · exact ⟨id, bookingShape_id, by simp⟩
    · exact ⟨id, bookingShape_id, by simp⟩

theorem foldl_connectionStep_bookings_map (na : Option Int) :
    ∀ (l : List Booking) (acc : DB × Nat),
      ∃ g, BookingShape g ∧
        (l.foldl (connectionStep na) acc).1.bookings = acc.1.bookings.map g := by
  intro l
  induction l with
  | nil => intro acc; exact ⟨id, bookingShape_id, by simp⟩
  | cons b t ih =>
    intro acc
    obtain ⟨g1, hg1, he1⟩ := connectionStep_bookings_map na acc b
    obtain ⟨g2, hg2, he2⟩ := ih (connectionStep na acc b)
    refine ⟨g2 ∘ g1, bookingShape_comp hg1 hg2, ?_⟩
    simp only [List.foldl_cons]
    rw [he2, he1, List.map_map]

theorem markedIn_map {st : DB} {i : Nat} {g : Booking → Booking}
    (hg : BookingShape g) (st' : DB)
    (hb : st'.bookings = st.bookings.map g) (h : MarkedIn st i) :
    MarkedIn st' i := by
  intro x hx hid
  rw [hb] at hx
  obtain ⟨y, hy, rfl⟩ := List.mem_map.1 hx
  obtain ⟨hids, -, -, hst⟩ := hg y
  rcases hst with h' | h'
  · rw [h']
    exact h y hy (by rw [← hids]; exact hid)
  · exact h'

theorem foldl_preserves_marked (na : Option Int) (l : List Booking)
    (acc : DB × Nat) (i : Nat) (h : MarkedIn acc.1 i) :
    MarkedIn (l.foldl (connectionStep na) acc).1 i := by
  obtain ⟨g, hg, he⟩ := foldl_connectionStep_bookings_map na l acc
  exact markedIn_map hg _ he h

theorem markMissed_marked (st : DB) (a c : Nat) :
    MarkedIn (markMissed st a c) a ∧ MarkedIn (markMissed st a c) c := by
  have key : ∀ i : Nat, i = a ∨ i = c → MarkedIn (markMissed st a c) i := by
    intro i hi x hx hid
    obtain ⟨y, hy, rfl⟩ := List.mem_map.1 hx
    have hidy : y.id = i := by
      have h1 := (markFn_fields a c y).1
      rw [h1] at hid
      exact hid
    have hcond : (y.id == a || y.id == c) = true := by
      rcases hi with rfl | rfl <;> simp [hidy]
    unfold markFn
    rw [if_pos hcond]
  exact ⟨key a (Or.inl rfl), key c (Or.inr rfl)⟩

theorem connectionStep_marks {na : Int} {acc : DB × Nat} {b : Booking}
    {n : Nat} {d : Int}
    (hlink : b.next_booking_id = some n)
    (hdep : connectionDep acc.1 n = some d) (hgap : d - na < 30) :
    connectionStep (some na) acc b = (markMissed acc.1 b.id n, acc.2 + 1) := by
  unfold connectionStep
  simp only [hlink, hdep]
  rw [if_pos hgap]

theorem connectionDep_map {st st' : DB} {g : Booking → Booking}
    (hg : BookingShape g)
    (hbook : st'.bookings = st.bookings.map g) (hfl : st'.flights = st.flights)
    (n : Nat) {b2 : Booking} {f2 : Flight}
    (hb2 : lookupBooking st n = some b2)
    (hf2 : lookupFlight st b2.flight_id = some f2) :
    connectionDep st' n = some (effDep f2) := by
  unfold connectionDep
  have hl : lookupBooking st' n = some (g b2) := by
    unfold lookupBooking
    rw [hbook, List.find?_map]
    have hp : ((fun b => b.id == n) ∘ g) = (fun b : Booking => b.id == n) := by
      funext x
      simp only [Function.comp]
      rw [(hg x).1]
    rw [hp]
    unfold lookupBooking at hb2
    rw [hb2]
    rfl
  rw [hl]
  show (lookupFlight st' (g b2).flight_id).map effDep = some (effDep f2)
  rw [(hg b2).2.1, lookupFlight_congr hfl, hf2]
  rfl

/-- C3 counterexample: on `dbC3x`, booking 11 is a CONFIRMED forward-linked
booking on the delayed flight whose linked flight departs 100 ≥ 30 minutes
after the updated arrival — per the claim it must NOT end up broken.  But
booking 10's iteration marks booking 11 (it is 10's forward link, and 10's
gap is −90 < 30), and booking 11's link 12 was already MISSED_CONNECTION, so
after STEP 3 both 11 and 12 are MISSED_CONNECTION: the claimed
"exactly when the gap is below 30" is false for booking 11. -/
theorem connection_break_cex :
    bookingElevenX.status = BookingStatus.CONFIRMED ∧
    bookingElevenX.flight_id = 1 ∧
    bookingElevenX.next_booking_id = some 12 ∧
    connectionDep dbC3x 12 = some 200 ∧
    ¬((200 : Int) - 100 < 30) ∧
    ((lookupBooking (check_connections dbC3x 1 (some 100)).1 11).map
        Booking.status = some BookingStatus.MISSED_CONNECTION) ∧
    ((lookupBooking (check_connections dbC3x 1 (some 100)).1 12).map
        Booking.status = some BookingStatus.MISSED_CONNECTION) :=
  ⟨rfl, rfl, rfl, rfl, by decide, rfl, rfl⟩

/-- C3 (amended): in STEP 3, for EVERY CONFIRMED forward-linked booking on
the delayed flight whose linked flight's effective departure is strictly
less than 30 minutes after the updated arrival, both that booking and its
linked booking end up MISSED_CONNECTION (a 29-minute gap is broken).  The
converse holds per iteration, not per end state: a qualifying booking with a
gap of 30 or more is not marked by its own iteration, but can still end up
MISSED_CONNECTION as the forward link of another qualifying booking (and its
linked booking may already be MISSED_CONNECTION); when the booking is the
only CONFIRMED forward-linked booking on the flight, the pair is
MISSED_CONNECTION exactly when the gap is strictly below 30 — a 30-minute
gap survives. -/
theorem connection_break_amended (s : DB) (fid : Nat) (na : Int) :
    (∀ b ∈ s.bookings, ∀ (n : Nat) (b2 : Booking) (f2 : Flight),
      b.flight_id = fid → b.status = BookingStatus.CONFIRMED →
      b.next_booking_id = some n →
      lookupBooking s n = some b2 →
      lookupFlight s b2.flight_id = some f2 →
      effDep f2 - na < 30 →
      ∀ x ∈ (check_connections s fid (some na)).1.bookings,
        x.id = b.id ∨ x.id = n →
        x.status = BookingStatus.MISSED_CONNECTION) ∧
    (∀ (b b2 : Booking) (n : Nat) (f2 : Flight),
      s.bookings.filter (fun x => x.flight_id == fid
        && x.next_booking_id.isSome
        && x.status == BookingStatus.CONFIRMED) = [b] →
      b.next_booking_id = some n →
      lookupBooking s b.id = some b →
      lookupBooking s n = some b2 →
      lookupFlight s b2.flight_id = some f2 →
      ((((lookupBooking (check_connections s fid (some na)).1 b.id).map
            Booking.status = some BookingStatus.MISSED_CONNECTION) ∧
        ((lookupBooking (check_connections s fid (some na)).1 n).map
            Booking.status = some BookingStatus.MISSED_CONNECTION))
        ↔ effDep f2 - na < 30)) := by
  constructor
  · intro b hbmem n b2 f2 hfid hconf hlink hb2 hf2 hgap
    have hbt : b ∈ s.bookings.filter (fun x => x.flight_id == fid
        && x.next_booking_id.isSome
        && x.status == BookingStatus.CONFIRMED) := by
      rw [List.mem_filter]
      refine ⟨hbmem, ?_⟩
      simp [hfid, hconf, hlink]
    obtain ⟨l1, l2, hsplit⟩ := List.append_of_mem hbt
    have hexp : check_connections s fid (some na) =
        l2.foldl (connectionStep (some na))
          (connectionStep (some na)
            (l1.foldl (connectionStep (some na)) ((s, 0) : DB × Nat)) b) := by
      unfold check_connections
      rw [hsplit, List.foldl_append, List.foldl_cons]
    obtain ⟨g, hg, hbook⟩ :=
      foldl_connectionStep_bookings_map (some na) l1 ((s, 0) : DB × Nat)
    have hfl : (l1.foldl (connectionStep (some na))
        ((s, 0) : DB × Nat)).1.flights = s.flights :=
      (foldl_connectionStep_nonbookings (some na) l1 (s, 0)).1
    have hdep : connectionDep (l1.foldl (connectionStep (some na))
        ((s, 0) : DB × Nat)).1 n = some (effDep f2) :=
      connectionDep_map hg hbook hfl n hb2 hf2
    have hstep := @connectionStep_marks na
      (l1.foldl (connectionStep (some na)) ((s, 0) : DB × Nat)) b n (effDep f2)
      hlink hdep hgap
    rw [hstep] at hexp
    have hmk := markMissed_marked (l1.foldl (connectionStep (some na))
      ((s, 0) : DB × Nat)).1 b.id n
    intro x hx hid
    rcases hid with h | h
    · refine foldl_preserves_marked (some na) l2
        (markMissed (l1.foldl (connectionStep (some na)) ((s, 0) : DB × Nat)).1 b.id n,
         (l1.foldl (connectionStep (some na)) ((s, 0) : DB × Nat)).2 + 1)
        b.id hmk.1 x ?_ h
      rw [← hexp]
      exact hx
    · refine foldl_preserves_marked (some na) l2
        (markMissed (l1.foldl (connectionStep (some na)) ((s, 0) : DB × Nat)).1 b.id n,
         (l1.foldl (connectionStep (some na)) ((s, 0) : DB × Nat)).2 + 1)
        n hmk.2 x ?_ h
      rw [← hexp]
      exact hx
  · intro b b2 n f2 hone hlink hb hns hf2
    exact connection_break_boundary s fid n na b b2 f2 hone hlink hb hns hf2

theorem connection_break_amended_witness :
    (((lookupBooking (check_connections (dbC3 129) 1 (some 100)).1 10).map
        Booking.status = some BookingStatus.MISSED_CONNECTION) ∧
     ((lookupBooking (check_connections (dbC3 129) 1 (some 100)).1 11).map
        Booking.status = some BookingStatus.MISSED_CONNECTION)) ∧
    ¬(((lookupBooking (check_connections (dbC3 130) 1 (some 100)).1 10).map
        Booking.status = some BookingStatus.MISSED_CONNECTION) ∧
      ((lookupBooking (check_connections (dbC3 130) 1 (some 100)).1 11).map
        Booking.status = some BookingStatus.MISSED_CONNECTION)) ∧
    (∀ x ∈ (check_connections (dbC3 129) 1 (some 100)).1.bookings,
      x.id = bookingTenC3.id ∨ x.id = 11 →
      x.status = BookingStatus.MISSED_CONNECTION) :=
  ⟨((connection_break_amended (dbC3 129) 1 100).2 bookingTenC3 bookingElevenC3
      11 (linkedFlightC3 129) rfl rfl rfl rfl rfl).2 (by decide),
   fun h => absurd (((connection_break_amended (dbC3 130) 1 100).2 bookingTenC3
      bookingElevenC3 11 (linkedFlightC3 130) rfl rfl rfl rfl rfl).1 h)
      (by decide),
   (connection_break_amended (dbC3 129) 1 100).1 bookingTenC3
      (by decide) 11 bookingElevenC3 (linkedFlightC3 129)
      rfl rfl rfl rfl rfl (by decide)⟩

/-! ### Lifecycle lemmas -/

theorem forall₂_trans_of {α : Type} {R : α → α → Prop}
    (hR : ∀ x y z, R x y → R y z → R x z) :
    ∀ {l1 l2 l3 : List α}, List.Forall₂ R l1 l2 → List.Forall₂ R l2 l3 →
      List.Forall₂ R l1 l3 := by
  intro l1 l2 l3 h1
  induction h1 generalizing l3 with
  | nil => intro h2; cases h2; exact List.Forall₂.nil
  | cons hr _ ih =>
    intro h2
    cases h2 with
    | cons hr2 ht => exact List.Forall₂.cons (hR _ _ _ hr hr2) (ih ht)

theorem boardStep_of_stuck {now : Int} {f : Flight}
    (_hs : f.status = FlightStatus.SCHEDULED) (hd : effDep f ≤ now) :
    boardStep now f = f := by
  unfold boardStep
  rw [if_neg]
  simp only [Bool.and_eq_true, decide_eq_true_eq, beq_iff_eq]
  rintro ⟨⟨-, -⟩, hlt⟩
  omega

theorem activateStep_of_scheduled {now : Int} {f : Flight}
    (hs : f.status = FlightStatus.SCHEDULED) :
    activateStep now f = f := by
  unfold activateStep
  rw [if_neg]
  simp [hs]

theorem landStep_of_scheduled {now : Int} {f : Flight}
    (hs : f.status = FlightStatus.SCHEDULED) :
    landStep now f = f := by
  unfold landStep
  rw [if_neg]
  simp [hs]

theorem update_flight_statuses_flights (s : DB) (now : Int) :
    (update_flight_statuses s now).flights =
      s.flights.map (fun f => landStep now (activateStep now (boardStep now f))) := by
  unfold update_flight_statuses
  simp [List.map_map]

theorem update_tick_rel (t0 : Int) (s : DB) (now : Int) (h : t0 ≤ now) :
    List.Forall₂
      (fun g g' => g.status = FlightStatus.SCHEDULED → effDep g ≤ t0 → g' = g)
      s.flights (update_flight_statuses s now).flights := by
  rw [update_flight_statuses_flights]
  rw [List.forall₂_map_right_iff]
  refine List.forall₂_same.2 (fun f _ => ?_)
  intro hs hd
  rw [boardStep_of_stuck hs (by omega), activateStep_of_scheduled hs,
    landStep_of_scheduled hs]

/-- C10: a SCHEDULED flight whose effective departure is at or before the
current time `t0` is stuck: the SCHEDULED→BOARDING rule demands a strictly
future effective departure and the →ACTIVE rule applies only to
BOARDING/DELAYED flights, so every subsequent lifecycle tick (at any time
≥ `t0`) leaves the flight unchanged — it stays SCHEDULED and never reaches
ACTIVE or LANDED. -/
theorem stuck_scheduled_flight (s : DB) (t0 : Int) (ts : List Int)
    (hts : ∀ t ∈ ts, t0 ≤ t) :
    List.Forall₂
      (fun g g' => g.status = FlightStatus.SCHEDULED → effDep g ≤ t0 → g' = g)
      s.flights ((ts.foldl update_flight_statuses s).flights) := by
  induction ts generalizing s with
  | nil => exact List.forall₂_same.2 (fun f _ _ _ => rfl)
  | cons t ts ih =>
    simp only [List.foldl_cons]
    refine forall₂_trans_of ?_
      (update_tick_rel t0 s t (hts t (List.mem_cons_self t ts)))
      (ih _ (fun t' ht' => hts t' (List.mem_cons_of_mem t ht')))
    intro x y z hxy hyz hs hd
    have h1 := hxy hs hd
    subst h1
    exact hyz hs hd

/-! ### Rebooking lemmas -/

theorem rebookCandidates_length (s : DB) (now : Int) (missed : Flight) :
    (rebookCandidates s now missed).length ≤ 3 := by
  unfold rebookCandidates
  simp only
  rw [List.length_take]
  exact min_le_left _ _

theorem rebookCandidates_sorted (s : DB) (now : Int) (missed : Flight) :
    List.Sorted (fun x y : Flight × Aircraft => effDep x.1 ≤ effDep y.1)
      (rebookCandidates s now missed) := by
  unfold rebookCandidates
  simp only
  haveI : IsTotal (Flight × Aircraft) (fun x y => effDep x.1 ≤ effDep y.1) :=
    ⟨fun a b => le_total _ _⟩
  haveI : IsTrans (Flight × Aircraft) (fun x y => effDep x.1 ≤ effDep y.1) :=
    ⟨fun a b c hab hbc => le_trans hab hbc⟩
  exact List.Pairwise.sublist (List.take_sublist _ _) (List.sorted_insertionSort _ _)

theorem rebookCandidates_mem {s : DB} {now : Int} {missed : Flight}
    {c : Flight × Aircraft} (hc : c ∈ rebookCandidates s now missed) :
    c.1 ∈ s.flights ∧ c.1.origin_code = missed.origin_code ∧
    c.1.destination_code = missed.destination_code ∧ now < effDep c.1 ∧
    c.1.status ≠ FlightStatus.LANDED ∧ c.1.status ≠ FlightStatus.CANCELLED ∧
    c.1.id ≠ missed.id := by
  unfold rebookCandidates at hc
  simp only at hc
  have hc2 := List.mem_of_mem_take hc
  have hc3 := (List.perm_insertionSort _ _).subset hc2
  rw [List.mem_filterMap] at hc3
  obtain ⟨f, hfmem, hf⟩ := hc3
  split at hf
  · exact Option.noConfusion hf
  · split at hf
    · rename_i hcond
      cases hf
      simp only [Bool.and_eq_true, beq_iff_eq, bne_iff_ne, decide_eq_true_eq] at hcond
      obtain ⟨⟨⟨⟨⟨h1, h2⟩, h3⟩, h4⟩, h5⟩, h6⟩ := hcond
      exact ⟨hfmem, h1, h2, h3, h4, h5, h6⟩
    · exact Option.noConfusion hf

/-- C8: for a MISSED_CONNECTION booking with a forward link, the matcher
scans the (at most 3, route-exact, future-departing, non-LANDED/CANCELLED,
earliest-effective-departure-ordered) candidates and yields a suggestion if
and only if one of them has strictly positive remaining capacity — the first
such candidate, reported with `seats_available = capacity - booked` and
`time_saved_minutes = missedArrival - candidateArrival` (possibly negative,
not filtered); if no candidate has capacity the booking yields nothing. -/
theorem rebooking_first_fit (s : DB) (now : Int) (b : Booking) (n : Nat)
    (pax : Passenger) (b2 : Booking) (missed : Flight)
    (hst : b.status = BookingStatus.MISSED_CONNECTION)
    (hlink : b.next_booking_id = some n)
    (hpax : lookupPassenger s b.passenger_id = some pax)
    (hb2 : lookupBooking s n = some b2)
    (hmf : lookupFlight s b2.flight_id = some missed) :
    (suggest_for_booking s now b = none ↔
      ∀ c ∈ rebookCandidates s now missed, availableSeats s c ≤ 0) ∧
    (∀ sug, suggest_for_booking s now b = some sug →
      ∃ l1 c l2, rebookCandidates s now missed = l1 ++ c :: l2 ∧
        (∀ c' ∈ l1, availableSeats s c' ≤ 0) ∧ 0 < availableSeats s c ∧
        sug.booking_id = b.id ∧ sug.suggested_flight_id = c.1.id ∧
        sug.seats_available = availableSeats s c ∧
        sug.suggested_dep = effDep c.1 ∧ sug.suggested_arr = effArr c.1 ∧
        sug.time_saved_minutes = effArr missed - effArr c.1) ∧
    (rebookCandidates s now missed).length ≤ 3 ∧
    List.Sorted (fun x y : Flight × Aircraft => effDep x.1 ≤ effDep y.1)
      (rebookCandidates s now missed) ∧
    (∀ c ∈ rebookCandidates s now missed,
      c.1 ∈ s.flights ∧ c.1.origin_code = missed.origin_code ∧
      c.1.destination_code = missed.destination_code ∧ now < effDep c.1 ∧
      c.1.status ≠ FlightStatus.LANDED ∧ c.1.status ≠ FlightStatus.CANCELLED ∧
      c.1.id ≠ missed.id) := by
  have hsimp : suggest_for_booking s now b =
      (match (rebookCandidates s now missed).find?
          (fun c => decide (0 < availableSeats s c)) with
      | none => none
      | some c => some ⟨b.id, pax.first_name ++ " " ++ pax.last_name,
          b.passenger_id, missed.flight_number, missed.origin_code,
          missed.destination_code, c.1.id, c.1.flight_number, effDep c.1,
          effArr c.1, availableSeats s c, effArr missed - effArr c.1⟩) := by
    unfold suggest_for_booking
    simp only [hst, beq_self_eq_true, if_true, hpax, hlink, hb2,
      Option.some_bind, hmf]
  refine ⟨?_, ?_, rebookCandidates_length s now missed,
    rebookCandidates_sorted s now missed, fun c hc => rebookCandidates_mem hc⟩
  · rw [hsimp]
    cases hfind : (rebookCandidates s now missed).find?
        (fun c => decide (0 < availableSeats s c)) with
    | none =>
      simp only
      constructor
      · intro _ c hc
        have := List.find?_eq_none.1 hfind c hc
        simp only [decide_eq_true_eq] at this
        omega
      · intro _
        trivial
    | some c =>
      simp only
      constructor
      · intro hco
        exact Option.noConfusion hco
      · intro hall
        have hcmem := List.mem_of_find?_eq_some hfind
        have hcpred := List.find?_some hfind
        simp only [decide_eq_true_eq] at hcpred
        have := hall c hcmem
        omega
  · intro sug hsug
    rw [hsimp] at hsug
    revert hsug
    cases hfind : (rebookCandidates s now missed).find?
        (fun c => decide (0 < availableSeats s c)) with
    | none =>
      intro hsug
      exact Option.noConfusion hsug
    | some c =>
      intro hsug
      simp only [Option.some.injEq] at hsug
      subst hsug
      obtain ⟨hpred, as, bs, hsplit, hfail⟩ := List.find?_eq_some.1 hfind
      refine ⟨as, c, bs, hsplit, ?_, ?_, rfl, rfl, rfl, rfl, rfl, rfl⟩
      · intro c' hc'
        have := hfail c' hc'
        simp only [Bool.not_eq_true', decide_eq_false_iff_not] at this
        omega
      · simp only [decide_eq_true_eq] at hpred
        exact hpred

theorem rebooking_first_fit_witness :
    ∃ l1 c l2, rebookCandidates dbC8 0 missedW = l1 ++ c :: l2 ∧
      (∀ c' ∈ l1, availableSeats dbC8 c' ≤ 0) ∧ 0 < availableSeats dbC8 c ∧
      sugW.booking_id = bookingW.id ∧ sugW.suggested_flight_id = c.1.id ∧
      sugW.seats_available = availableSeats dbC8 c ∧
      sugW.suggested_dep = effDep c.1 ∧ sugW.suggested_arr = effArr c.1 ∧
      sugW.time_saved_minutes = effArr missedW - effArr c.1 :=
  (rebooking_first_fit dbC8 0 bookingW 11 paxFiveC8 bookingElevenC8 missedW
    rfl rfl rfl rfl rfl).2.1 sugW rfl

/-! ### Invariant-preservation lemmas -/

theorem boardStep_invFields (now : Int) (f : Flight) :
    (boardStep now f).actual_dep = f.actual_dep ∧
    (boardStep now f).actual_arr = f.actual_arr ∧
    (boardStep now f).scheduled_dep = f.scheduled_dep ∧
    (boardStep now f).scheduled_arr = f.scheduled_arr ∧
    (boardStep now f).delay_minutes = f.delay_minutes := by
  unfold boardStep
  split <;> exact ⟨rfl, rfl, rfl, rfl, rfl⟩

theorem activateStep_invFields (now : Int) (f : Flight) :
    (activateStep now f).actual_dep = f.actual_dep ∧
    (activateStep now f).actual_arr = f.actual_arr ∧
    (activateStep now f).scheduled_dep = f.scheduled_dep ∧
    (activateStep now f).scheduled_arr = f.scheduled_arr ∧
    (activateStep now f).delay_minutes = f.delay_minutes := by
  unfold activateStep
  split <;> exact ⟨rfl, rfl, rfl, rfl, rfl⟩

theorem landStep_invFields (now : Int) (f : Flight) :
    (landStep now f).actual_dep = f.actual_dep ∧
    (landStep now f).actual_arr = f.actual_arr ∧
    (landStep now f).scheduled_dep = f.scheduled_dep ∧
    (landStep now f).scheduled_arr = f.scheduled_arr ∧
    (landStep now f).delay_minutes = f.delay_minutes := by
  unfold landStep
  split <;> exact ⟨rfl, rfl, rfl, rfl, rfl⟩

theorem invPres_of_fields {f g : Flight}
    (h1 : g.actual_dep = f.actual_dep) (h2 : g.actual_arr = f.actual_arr)
    (h3 : g.scheduled_dep = f.scheduled_dep)
    (h4 : g.scheduled_arr = f.scheduled_arr)
    (h5 : g.delay_minutes = f.delay_minutes) : InvPres f g := by
  intro hI hD
  constructor
  · constructor
    · rw [h1]; exact hI.1
    · rw [h2]; exact hI.2
  · intro dep arr hdep harr
    rw [h1] at hdep
    rw [h2] at harr
    obtain ⟨ha, hb⟩ := hD dep arr hdep harr
    rw [h3, h4, h5]
    exact ⟨ha, hb⟩

theorem tick_invPres (now : Int) (f : Flight) :
    InvPres f (landStep now (activateStep now (boardStep now f))) := by
  have h1 := boardStep_invFields now f
  have h2 := activateStep_invFields now (boardStep now f)
  have h3 := landStep_invFields now (activateStep now (boardStep now f))
  exact invPres_of_fields
    (h3.1.trans (h2.1.trans h1.1))
    (h3.2.1.trans (h2.2.1.trans h1.2.1))
    (h3.2.2.1.trans (h2.2.2.1.trans h1.2.2.1))
    (h3.2.2.2.1.trans (h2.2.2.2.1.trans h1.2.2.2.1))
    (h3.2.2.2.2.trans (h2.2.2.2.2.trans h1.2.2.2.2))

/-- C5: every engine operation preserves, per flight, the invariant that an
initialized flight has `actual_dep = scheduled_dep + cumulative_delay` and an
actual duration equal to the scheduled duration: delay propagation shifts
both endpoints by the same amount it adds to the delay, lifecycle ticks touch
only the status, reset re-establishes the invariant outright, and
initialization leaves initialized flights alone. -/
theorem engine_preserves_delay_invariant (s s' : DB) (fid : Nat) (p : Int)
    (cause : String) (cf : Option Nat) (depth : Nat) (now : Int) (hp : 0 ≤ p) :
    (calculate_blast_radius s fid p cause cf depth = Except.ok s' →
       List.Forall₂ InvPres s.flights s'.flights) ∧
    List.Forall₂ InvPres s.flights (update_flight_statuses s now).flights ∧
    (∀ f ∈ (reset_simulation s).flights, Initialized f ∧ DelayInvariant f) ∧
    List.Forall₂ InvPres s.flights (initialize_flight_times s).flights := by
  refine ⟨?_, ?_, ?_, ?_⟩
  · intro h
    exact ((blast_go_ok _ _ _ _ _ _ _ hp h).1).imp (fun a b hr => hr.invPres)
  · rw [update_flight_statuses_flights, List.forall₂_map_right_iff]
    exact List.forall₂_same.2 (fun f _ => tick_invPres now f)
  · intro f hf
    obtain ⟨g, _, rfl⟩ := List.mem_map.1 hf
    refine ⟨⟨rfl, rfl⟩, ?_⟩
    intro dep arr hdep harr
    simp only [Option.some.injEq] at hdep harr
    subst hdep
    subst harr
    constructor <;> simp
  · unfold initialize_flight_times
    simp only
    rw [List.forall₂_map_right_iff]
    refine List.forall₂_same.2 (fun f _ => ?_)
    by_cases hn : f.actual_dep.isNone
    · rw [if_pos hn]
      intro hI _
      rw [Option.isNone_iff_eq_none] at hn
      have hcontra := hI.1
      rw [hn] at hcontra
      simp at hcontra
    · rw [if_neg hn]
      exact fun hI hD => ⟨hI, hD⟩

theorem engine_preserves_delay_invariant_witness :
    (0:Int) ≤ 5 ∧
    calculate_blast_radius dbC5 1 5 "w" none 0 = Except.ok resultC5 ∧
    ((calculate_blast_radius dbC5 1 5 "w" none 0 = Except.ok resultC5 →
        List.Forall₂ InvPres dbC5.flights resultC5.flights) ∧
     List.Forall₂ InvPres dbC5.flights (update_flight_statuses dbC5 0).flights ∧
     (∀ f ∈ (reset_simulation dbC5).flights, Initialized f ∧ DelayInvariant f) ∧
     List.Forall₂ InvPres dbC5.flights (initialize_flight_times dbC5).flights) :=
  ⟨by decide, rfl,
   engine_preserves_delay_invariant dbC5 resultC5 1 5 "w" none 0 0 (by decide)⟩

/-! ### Delay-monotonicity lemmas -/

theorem run_triggers_rel : ∀ (ts : List (Nat × Int × String)) (s s' : DB),
    (∀ t ∈ ts, 0 ≤ t.2.1) → run_triggers s ts = Except.ok s' →
    List.Forall₂ (fun f f' => f.id = f'.id ∧ f.delay_minutes ≤ f'.delay_minutes)
      s.flights s'.flights := by
  intro ts
  induction ts with
  | nil =>
    intro s s' _ hrun
    rw [run_triggers] at hrun
    cases hrun
    exact List.forall₂_same.2 (fun f _ => ⟨rfl, le_refl _⟩)
  | cons t ts ih =>
    intro s s' hts hrun
    rw [run_triggers] at hrun
    split at hrun
    · rename_i s1 htrig
      have htrig' : blast_go 21 s t.1 t.2.1 t.2.2 none = Except.ok s1 := htrig
      have h1 := ((blast_go_ok _ _ _ _ _ _ _
        (hts t (List.mem_cons_self t ts)) htrig').1).imp
        (fun a b hr => And.intro hr.id_eq.symm hr.delay_le)
      have h2 := ih s1 s' (fun t' ht' => hts t' (List.mem_cons_of_mem t ht')) hrun
      exact forall₂_trans_of
        (fun x y z hxy hyz => ⟨hxy.1.trans hyz.1, le_trans hxy.2 hyz.2⟩) h1 h2
    · exact Except.noConfusion hrun

/-- C6: across any sequence of non-negative manual delay triggers (each one a
full recursive cascade) every flight keeps its id and its cumulative delay
never decreases; in particular delays that start non-negative stay
non-negative forever. -/
theorem delay_monotone_nonneg (s s' : DB) (ts : List (Nat × Int × String))
    (hts : ∀ t ∈ ts, 0 ≤ t.2.1)
    (hrun : run_triggers s ts = Except.ok s') :
    List.Forall₂ (fun f f' => f.id = f'.id ∧ f.delay_minutes ≤ f'.delay_minutes)
      s.flights s'.flights ∧
    ((∀ f ∈ s.flights, 0 ≤ f.delay_minutes) →
      ∀ f' ∈ s'.flights, 0 ≤ f'.delay_minutes) := by
  have hrel := run_triggers_rel ts s s' hts hrun
  refine ⟨hrel, ?_⟩
  intro h0 f' hf'
  obtain ⟨f, hf, _, hle⟩ := forall₂_exists_left hrel f' hf'
  exact le_trans (h0 f hf) hle

theorem delay_monotone_nonneg_witness :
    List.Forall₂ (fun f f' => f.id = f'.id ∧ f.delay_minutes ≤ f'.delay_minutes)
      dbC5.flights resultC6.flights ∧
    ((∀ f ∈ dbC5.flights, 0 ≤ f.delay_minutes) →
      ∀ f' ∈ resultC6.flights, 0 ≤ f'.delay_minutes) :=
  delay_monotone_nonneg dbC5 resultC6 [(1, 5, "a"), (1, 7, "b")]
    (by decide) rfl

theorem stuck_scheduled_flight_witness :
    (∀ t ∈ [(0:Int), 50, 1000], (0:Int) ≤ t) ∧
    List.Forall₂
      (fun g g' => g.status = FlightStatus.SCHEDULED → effDep g ≤ 0 → g' = g)
      dbC10.flights ((([(0:Int), 50, 1000]).foldl update_flight_statuses dbC10).flights) :=
  ⟨by decide, stuck_scheduled_flight dbC10 0 [0, 50, 1000] (by decide)⟩

end Flightsim
